import Mathlib

/-!
# ACE Proactor: completion dispatch, timer upcalls and timer-queue ownership

A shallow embedding of `src/ace/Proactor.cpp`, and of the active demultiplexing object
table of `src/TAO/tao/Object_Table.cpp`.

* Pointers and handles are natural numbers; `0` is the null pointer.
* `u_long` / `int` error codes are natural numbers, `BOOL` and `int` results are integers
  (`FALSE = 0`).
* Calls into the operating system are inputs of the embedded functions: each function
  receives what the OS call returned (result, out-parameters, `GetLastError ()`).
* A C++ method becomes a function from the state it reads to the state it leaves,
  together with the trace of calls it made.
-/

namespace ACE

/-! ## Data model -/

/-- The class `ACE_Time_Value`: a point in time or a duration, counted in microseconds. -/
abbrev ACE_Time_Value := Int

/-- A call made up into user code by a completion callback. -/
inductive Upcall where
  | handle_timeout (handler : Nat) (time : ACE_Time_Value) (act : Nat)
  | other (handler : Nat) (tag : Nat)
  deriving DecidableEq

/-- What the Proactor code does to packets: `new` of a result object, posting it to a
completion port, the virtual `complete` call, the upcalls made by it, and
`delete asynch_result`. -/
inductive Event where
  | alloc (asynch_result : Nat)
  | post (port : Nat) (bytes_transferred : Nat) (completion_key : Nat) (overlapped : Nat)
  | complete (asynch_result : Nat) (bytes_transferred : Nat) (success : Int)
      (completion_key : Nat) (error : Nat)
  | upcall (u : Upcall)
  | destroy (asynch_result : Nat)
  deriving DecidableEq

/-- The class `ACE_Handler`: the user object receiving completions.  `handle_timeout_raises time act`
tells whether the `handle_timeout (time, act)` of the user ends by raising a structured
exception instead of returning. -/
structure ACE_Handler where
  id : Nat
  handle_timeout_raises : ACE_Time_Value → Nat → Bool

/-- The class `ACE_Asynch_Result` with its subclasses.  `Asynch_Timer` is the class of
Proactor.cpp:479-495; `other` stands for every result class of the I/O layer, whose
`complete` is given by `body` (the upcalls it makes and whether it raises). -/
inductive ACE_Asynch_Result where
  | Asynch_Timer (handler_ : ACE_Handler) (act_ : Nat) (time_ : ACE_Time_Value)
  | other (handler_ : ACE_Handler) (act_ : Nat)
      (body : Nat → Int → Nat → Nat → List Upcall × Bool)

/-- The virtual `complete (bytes_transferred, success, completion_key, error)`.
`ACE_Proactor::Asynch_Timer::complete` (Proactor.cpp:488-495) ignores its four arguments
and calls `handler_.handle_timeout (time_, act ())`. -/
def ACE_Asynch_Result.complete : ACE_Asynch_Result → Nat → Int → Nat → Nat →
    List Upcall × Bool
  | .Asynch_Timer handler_ act_ time_, _, _, _, _ =>
      ([Upcall.handle_timeout handler_.id time_ act_], handler_.handle_timeout_raises time_ act_)
  | .other _ _ body, bytes_transferred, success, completion_key, error =>
      body bytes_transferred success completion_key error

/-- The free store holding the live `ACE_Asynch_Result` objects, by address. -/
structure Heap where
  cells : List (Nat × ACE_Asynch_Result)

/-- An address that is not null and not in use. -/
def Heap.fresh (h : Heap) : Nat :=
  (h.cells.map (fun c => c.1)).foldr max 0 + 1

/-- Dereference `(ACE_Asynch_Result *) p`: the live object at `p`, if any. -/
def Heap.deref (h : Heap) (p : Nat) : Option ACE_Asynch_Result :=
  if p = 0 then none else h.cells.lookup p

/-- The `new` expression: place `obj` at a fresh address. -/
def Heap.new (h : Heap) (obj : ACE_Asynch_Result) : Nat × Heap :=
  (h.fresh, ⟨(h.fresh, obj) :: h.cells⟩)

/-- The `delete p` expression (a no-op on the null pointer). -/
def Heap.delete (h : Heap) (p : Nat) : Heap :=
  ⟨h.cells.filter (fun c => c.1 != p)⟩

/-- How a call ends: it returns, it unwinds with a structured exception, or it has
called through a pointer that designates no live object. -/
inductive Flow where
  | normal
  | raised
  | undefined
  deriving DecidableEq

/-- How `handle_events` ends. -/
inductive Outcome where
  | returned (value : Int)
  | raised
  | undefined
  deriving DecidableEq

/-- State left by a `void` member function. -/
structure Effect where
  flow : Flow
  heap : Heap
  trace : List Event

/-- Modelled from the spec: the macros `ACE_SEH_TRY` / `ACE_SEH_FINALLY` are not under
src.  The spec calls them a scoped-deallocation guard (structured termination handler):
the guarded block runs, then the termination block runs whether or not the guarded
block raised, and the way the guarded block ended is the way the whole statement ends. -/
def ACE_SEH_TRY_FINALLY {σ : Type} (guarded : σ → Flow × σ) (termination : σ → σ)
    (s : σ) : Flow × σ :=
  ((guarded s).1, termination (guarded s).2)

/-- The method `ACE_Proactor::application_specific_code` (Proactor.cpp:377-397).  `errno`
is the `errno` of the calling thread; the source passes `errno`, not its parameter `error`, to
`complete`. -/
def ACE_Proactor.application_specific_code (errno : Nat) (heap : Heap)
    (asynch_result : Nat) (bytes_transferred : Nat) (success : Int)
    (completion_key : Nat) (_error : Nat) : Effect :=
  let r := ACE_SEH_TRY_FINALLY
    (fun (s : Heap × List Event) =>
      -- Call completion hook
      match s.1.deref asynch_result with
      | none =>
          (Flow.undefined,
            (s.1, s.2 ++ [Event.complete asynch_result bytes_transferred success
              completion_key errno]))
      | some obj =>
          let c := obj.complete bytes_transferred success completion_key errno
          (if c.2 then Flow.raised else Flow.normal,
            (s.1, s.2 ++ Event.complete asynch_result bytes_transferred success
              completion_key errno :: c.1.map Event.upcall)))
    (fun (s : Heap × List Event) =>
      -- This is crucial to prevent memory leaks
      (s.1.delete asynch_result, s.2 ++ [Event.destroy asynch_result]))
    (heap, [])
  ⟨r.1, r.2.1, r.2.2⟩

/-- What `::GetQueuedCompletionStatus` handed back: its `BOOL` result, the three
out-parameters (which the caller initialised to 0) and the value `::GetLastError ()`
has afterwards. -/
structure Dequeue where
  result : Int
  bytes_transferred : Nat
  completion_key : Nat
  overlapped : Nat
  last_error : Nat
  deriving DecidableEq

/-- State left by `handle_events`. -/
structure Handled where
  outcome : Outcome
  errno : Nat
  heap : Heap
  trace : List Event

/-- The method `ACE_Proactor::handle_events (unsigned long milli_seconds)`
(Proactor.cpp:334-375).
`d` is the answer of `::GetQueuedCompletionStatus (completion_port_, ..., milli_seconds)`,
`errno` the `errno` of the calling thread on entry, `ETIMEDOUT` the value that constant
has on the platform (its definition is not under src). -/
def ACE_Proactor.handle_events (ETIMEDOUT : Nat) (errno : Nat) (heap : Heap)
    (d : Dequeue) : Handled :=
  if d.result = 0 ∧ d.overlapped = 0 then
    let errno := d.last_error
    if errno = 258 then
      ⟨Outcome.returned 0, ETIMEDOUT, heap, []⟩
    else
      ⟨Outcome.returned (-1), errno, heap, []⟩
  else
    -- Narrow result
    let asynch_result := d.overlapped
    -- If errors happen, grab the error
    let errno := if d.result = 0 then d.last_error else errno
    let e := ACE_Proactor.application_specific_code errno heap asynch_result
      d.bytes_transferred d.result d.completion_key errno
    match e.flow with
    | Flow.normal => ⟨Outcome.returned 0, errno, e.heap, e.trace⟩
    | Flow.raised => ⟨Outcome.raised, errno, e.heap, e.trace⟩
    | Flow.undefined => ⟨Outcome.undefined, errno, e.heap, e.trace⟩

/-- The error value `handle_events` hands to the callback: the OS error of a failed
dequeue, otherwise whatever `errno` held on entry. -/
def dispatched_error (errno : Nat) (d : Dequeue) : Nat :=
  if d.result = 0 then d.last_error else errno

/-- A worker calling `handle_events` again and again, once per answer of the completion
port in `ds`; the traces of the calls, in order.  The loop goes on after a call that
unwinds (a worker that stops there runs a shorter list). -/
def ACE_Proactor.run_handle_events (ETIMEDOUT : Nat) : Nat → Heap → List Dequeue → List Event
  | _, _, [] => []
  | errno, heap, d :: ds =>
      (ACE_Proactor.handle_events ETIMEDOUT errno heap d).trace ++
        ACE_Proactor.run_handle_events ETIMEDOUT
          (ACE_Proactor.handle_events ETIMEDOUT errno heap d).errno
          (ACE_Proactor.handle_events ETIMEDOUT errno heap d).heap ds

/-- Number of `complete` calls made on packet `p` in a trace. -/
def completions (p : Nat) (t : List Event) : Nat :=
  t.countP (fun e => match e with
    | Event.complete q _ _ _ _ => decide (q = p)
    | _ => false)

/-- Number of `delete` calls made on packet `p` in a trace. -/
def destructions (p : Nat) (t : List Event) : Nat :=
  t.countP (fun e => match e with
    | Event.destroy q => decide (q = p)
    | _ => false)

/-- The non-null packet pointers handed out by a sequence of dequeues, in order. -/
def delivered (ds : List Dequeue) : List Nat :=
  (ds.map (fun d => d.overlapped)).filter (fun p => p ≠ 0)

/-- The upcalls into user code in a trace, in order. -/
def upcalls (t : List Event) : List Upcall :=
  t.filterMap (fun e => match e with
    | Event.upcall u => some u
    | _ => none)

/-! ## Sample objects -/

/-- A user handler whose `handle_timeout` returns. -/
def quiet_handler : ACE_Handler := ⟨7, fun _ _ => false⟩

/-- A user handler whose `handle_timeout` raises. -/
def raising_handler : ACE_Handler := ⟨8, fun _ _ => true⟩

/-- A result of the I/O layer whose `complete` makes no upcall and returns. -/
def io_packet : ACE_Asynch_Result :=
  ACE_Asynch_Result.other quiet_handler 0 (fun _ _ _ _ => ([], false))

/-- A free store with one live packet, at address 1. -/
def one_packet_heap : Heap := ⟨[(1, io_packet)]⟩

/-- A free store with a timer result of a raising handler at address 1 and an I/O result
at address 2. -/
def two_packet_heap : Heap :=
  ⟨[(1, ACE_Asynch_Result.Asynch_Timer raising_handler 4 100), (2, io_packet)]⟩

/-! ## The completion port of the operating system -/

/-- An entry of an OS completion queue.  `error = 0` for a packet that was posted or
whose I/O operation succeeded, otherwise the error code of the failed operation. -/
structure QEntry where
  bytes_transferred : Nat
  completion_key : Nat
  overlapped : Nat
  error : Nat
  deriving DecidableEq

/-- Modelled from the spec: the "infinite" wait, which is the Win32 constant `INFINITE`
(its header is not under src). -/
def INFINITE : Nat := 4294967295

/-- Modelled from the spec: the OS error "already associated", which is the Win32 code
`ERROR_INVALID_PARAMETER` (winerror.h, not under src). -/
def ERROR_INVALID_PARAMETER : Nat := 87

/-- Modelled from the spec: the OS primitive `dequeue(timeout)` of the completion queue
(`::GetQueuedCompletionStatus`), following the outcome table of `handle_events`: a queued
packet is handed out, with result TRUE when its operation succeeded and FALSE with the
error code of the operation otherwise; an empty queue answers FALSE with a null packet and
the wait-timeout code 258 once a finite deadline has passed, and never answers under
an infinite one (`none`). -/
def GetQueuedCompletionStatus (queue : List QEntry) (milli_seconds : Nat)
    (last_error : Nat) : Option (Dequeue × List QEntry) :=
  match queue with
  | e :: rest =>
      some (⟨if e.error = 0 then 1 else 0, e.bytes_transferred, e.completion_key,
        e.overlapped, if e.error = 0 then last_error else e.error⟩, rest)
  | [] =>
      if milli_seconds = INFINITE then none
      else some (⟨0, 0, 0, 0, 258⟩, [])

/-- Modelled from the spec: the OS primitive `post(packet)` (`::PostQueuedCompletionStatus`).
`accepted` says whether the OS takes the packet; if so it is appended to the queue of
`port`, and the `BOOL` result is TRUE. -/
def PostQueuedCompletionStatus (accepted : Bool) (ports : Nat → List QEntry)
    (port : Nat) (bytes_transferred : Nat) (completion_key : Nat) (overlapped : Nat) :
    Int × (Nat → List QEntry) :=
  if accepted then
    (1, Function.update ports port
      (ports port ++ [⟨bytes_transferred, completion_key, overlapped, 0⟩]))
  else (0, ports)

/-- The part of the OS state that handle association reads and writes: the handles
already associated with a completion port, and the last-error value of the calling thread. -/
structure Win32 where
  associated : List Nat
  last_error : Nat
  deriving DecidableEq

/-- Modelled from the spec: the OS primitive `associate(handle)`
(`::CreateIoCompletionPort (handle, port, key, threads)`).  A handle that is already
associated is refused: null result, last error "already associated"
(`ERROR_INVALID_PARAMETER`).  Any other handle becomes associated and the (non-null)
port handle is returned, a new port when `port` is null. -/
def CreateIoCompletionPort (os : Win32) (handle : Nat) (port : Nat) (_key : Nat)
    (_threads : Nat) : Nat × Win32 :=
  if handle ∈ os.associated then (0, ⟨os.associated, ERROR_INVALID_PARAMETER⟩)
  else (if port = 0 then 1 else port, ⟨handle :: os.associated, os.last_error⟩)

/-! ## The Proactor -/

/-- The data members of `ACE_Proactor` that Proactor.cpp reads and writes. -/
structure ACE_Proactor where
  completion_port_ : Nat
  number_of_threads_ : Nat
  timer_queue_ : Nat
  delete_timer_queue_ : Int
  timer_handler_ : Nat
  deriving DecidableEq

/-- State left by `register_handle`. -/
structure Registered where
  result : Int
  errno : Nat
  proactor : ACE_Proactor
  deriving DecidableEq

/-- The method `ACE_Proactor::register_handle` (Proactor.cpp:234-252).  `sys handle port key threads`
is the answer of `::CreateIoCompletionPort`: the handle it returns and the value of
`::GetLastError ()` afterwards. -/
def ACE_Proactor.register_handle (self : ACE_Proactor) (errno : Nat)
    (sys : Nat → Nat → Nat → Nat → Nat × Nat) (handle : Nat) (completion_key : Nat) :
    Registered :=
  -- No locking is needed here as no state changes
  let cp := (sys handle self.completion_port_ completion_key self.number_of_threads_).1
  if cp = 0 then
    let errno := (sys handle self.completion_port_ completion_key self.number_of_threads_).2
    -- If errno == ERROR_INVALID_PARAMETER, then this handle was already registered.
    if errno ≠ ERROR_INVALID_PARAMETER then ⟨-1, errno, self⟩
    else ⟨0, errno, self⟩
  else ⟨0, errno, self⟩

/-- The answer of the modelled OS in state `os`, in the shape `register_handle` takes. -/
def Win32.sys (os : Win32) (handle port key threads : Nat) : Nat × Nat :=
  ((CreateIoCompletionPort os handle port key threads).1,
    (CreateIoCompletionPort os handle port key threads).2.last_error)

/-- The OS state after the association call of `register_handle`. -/
def Win32.after (os : Win32) (self : ACE_Proactor) (handle key : Nat) : Win32 :=
  (CreateIoCompletionPort os handle self.completion_port_ key self.number_of_threads_).2

/-! ## The timeout upcall functor -/

/-- The class `ACE_Proactor_Handle_Timeout_Upcall`: its one data member, the back pointer to the
Proactor (null until bound). -/
structure ACE_Proactor_Handle_Timeout_Upcall where
  proactor_ : Nat
  deriving DecidableEq

/-- The constructor (Proactor.cpp:106-109). -/
def ACE_Proactor_Handle_Timeout_Upcall.ctor : ACE_Proactor_Handle_Timeout_Upcall :=
  ⟨0⟩

/-- The method `ACE_Proactor_Handle_Timeout_Upcall::proactor (ACE_Proactor &proactor)`
(Proactor.cpp:156-168); `proactor` is the address `&proactor`. -/
def ACE_Proactor_Handle_Timeout_Upcall.proactor (self : ACE_Proactor_Handle_Timeout_Upcall)
    (proactor : Nat) : Int × ACE_Proactor_Handle_Timeout_Upcall :=
  if self.proactor_ = 0 then
    (0, { self with proactor_ := proactor })
  else
    (-1, self)

/-- A caller binding the functor to the Proactors at addresses `ps`, one call after the
other; the functor afterwards. -/
def ACE_Proactor_Handle_Timeout_Upcall.bind_all
    (self : ACE_Proactor_Handle_Timeout_Upcall) (ps : List Nat) :
    ACE_Proactor_Handle_Timeout_Upcall :=
  ps.foldl (fun f p => (f.proactor p).2) self

/-- State left by the functor call. -/
structure Posted where
  result : Int
  heap : Heap
  ports : Nat → List QEntry
  trace : List Event

/-- The method `ACE_Proactor_Handle_Timeout_Upcall::operator ()` with handler, act and time
(Proactor.cpp:111-142).  `mem` gives the Proactor object at an address, `accepted` is the
decision of the OS on the post. -/
def ACE_Proactor_Handle_Timeout_Upcall.operator (self : ACE_Proactor_Handle_Timeout_Upcall)
    (mem : Nat → ACE_Proactor) (accepted : Bool) (heap : Heap) (ports : Nat → List QEntry)
    (handler : ACE_Handler) (act : Nat) (time : ACE_Time_Value) : Posted :=
  if self.proactor_ = 0 then
    ⟨-1, heap, ports, []⟩
  else
    -- Create the Asynch_Timer
    let asynch_timer := (heap.new (ACE_Asynch_Result.Asynch_Timer handler act time)).1
    let heap1 := (heap.new (ACE_Asynch_Result.Asynch_Timer handler act time)).2
    -- Post a completion
    let port := (mem self.proactor_).completion_port_
    let posted := PostQueuedCompletionStatus accepted ports port 0 0 asynch_timer
    if posted.1 = 0 then
      ⟨-1, heap1.delete asynch_timer, posted.2,
        [Event.alloc asynch_timer, Event.destroy asynch_timer]⟩
    else
      ⟨0, heap1, posted.2, [Event.alloc asynch_timer, Event.post port 0 0 asynch_timer]⟩

/-! ## Timers -/

/-- Modelled from the spec: the class `ACE_Proactor::Timer_Queue` is declared outside
src.  Per the spec it is a capability interface shared by the list, heap and wheel
variants; `σ` is the state of the queue object, `schedule` answers the timer id (or -1)
and `cancel` the number of nodes removed. -/
structure Timer_Queue (σ : Type) where
  schedule : σ → Nat → Nat → ACE_Time_Value → ACE_Time_Value → Int × σ
  cancel : σ → Int → Int × σ
  earliest_time : σ → ACE_Time_Value
  is_empty : σ → Bool

/-- State left by `schedule_timer`; `signals` counts the calls of
`timer_event_.signal ()`. -/
structure Scheduled (σ : Type) where
  result : Int
  queue : σ
  signals : Nat

/-- The method `ACE_Proactor::schedule_timer (handler, act, time, interval)`
(Proactor.cpp:270-301).
`q` is the state of `*timer_queue_`, `now` what its `gettimeofday ()` returns, `locked`
whether `ACE_GUARD_RETURN` acquired the lock of the queue, `signal` what
`timer_event_.signal ()` returns when called. -/
def ACE_Proactor.schedule_timer {σ : Type} (Q : Timer_Queue σ) (q : σ)
    (now : ACE_Time_Value) (locked : Bool) (signal : Int) (handler : Nat) (act : Nat)
    (time : ACE_Time_Value) (interval : ACE_Time_Value) : Scheduled σ :=
  -- absolute time
  let absolute_time := now + time
  -- Only one guy goes in here at a time
  if locked = false then ⟨-1, q, 0⟩
  else
    -- Schedule the timer
    let result := (Q.schedule q handler act absolute_time interval).1
    let q1 := (Q.schedule q handler act absolute_time interval).2
    if result ≠ -1 then
      -- no failures: check to see if we are the earliest time
      if Q.earliest_time q1 = absolute_time then
        -- wake up the timer thread
        if signal = -1 then
          -- Cancel timer
          ⟨-1, (Q.cancel q1 result).2, 1⟩
        else ⟨result, q1, 1⟩
      else ⟨result, q1, 0⟩
    else ⟨result, q1, 0⟩

/-- A node of a timer queue. -/
structure Timer_Node where
  handler : Nat
  act : Nat
  time : ACE_Time_Value
  interval : ACE_Time_Value
  timer_id : Int
  deriving DecidableEq

/-- The state of a list-based timer queue: nodes ordered by expiration time, the id the
next node gets, and the number of nodes it can still allocate. -/
structure Timer_List where
  nodes : List Timer_Node
  next_id : Nat
  room : Nat
  deriving DecidableEq

/-- Ordered insertion: before the first node that expires later. -/
def Timer_List.insert (n : Timer_Node) : List Timer_Node → List Timer_Node
  | [] => [n]
  | m :: ms => if n.time < m.time then n :: m :: ms else m :: Timer_List.insert n ms

/-- Modelled from the spec: the list variant of the timer queue ("simple ordered
insertion, O(n) schedule, O(1) earliest"); its class is not under src.  `schedule` fails
with -1 when no node can be allocated. -/
def Timer_List.queue : Timer_Queue Timer_List where
  schedule := fun q handler act time interval =>
    if q.room = 0 then (-1, q)
    else ((q.next_id : Int),
      ⟨Timer_List.insert ⟨handler, act, time, interval, q.next_id⟩ q.nodes,
        q.next_id + 1, q.room - 1⟩)
  cancel := fun q timer_id =>
    (((q.nodes.filter (fun n => n.timer_id = timer_id)).length : Int),
      ⟨q.nodes.filter (fun n => n.timer_id ≠ timer_id), q.next_id, q.room⟩)
  earliest_time := fun q =>
    match q.nodes with
    | [] => 0
    | n :: _ => n.time
  is_empty := fun q => q.nodes.isEmpty

/-! ## Ownership of the timer queue -/

/-- The timer-queue objects the Proactor deals with: the upcall functor of the queue at
each address, and the log of the `new Timer_List` and `delete this->timer_queue_`
statements the Proactor has executed, in order. -/
structure Queues where
  upcall_functor : Nat → ACE_Proactor_Handle_Timeout_Upcall
  created : List Nat
  deleted : List Nat

/-- State left by the setter: the Proactor, the queue store, and how the call ended. -/
structure Installed where
  proactor : ACE_Proactor
  queues : Queues
  flow : Flow

/-- The setter `ACE_Proactor::timer_queue (Timer_Queue *tq)` (Proactor.cpp:453-477).
`this` is the address of the Proactor, `fresh` the address `new Timer_List` returns when
it is evaluated.  The source does not compare `tq` with `timer_queue_`: when the flag is
set and `tq` is the installed queue, that queue is deleted by the first statement,
installed again by the second, and the last statement calls `upcall_functor ()` through
the pointer just freed; the call is then undefined, and the state returned is the one
the assignments have left.  A `tq` that was already dangling when the caller passed it
is not tracked. -/
def ACE_Proactor.timer_queue (self : ACE_Proactor) (this : Nat) (qs : Queues) (tq : Nat)
    (fresh : Nat) : Installed :=
  -- cleanup old timer queue
  let qs1 : Queues :=
    if self.delete_timer_queue_ ≠ 0 then { qs with deleted := qs.deleted ++ [self.timer_queue_] }
    else qs
  let self1 : ACE_Proactor :=
    if self.delete_timer_queue_ ≠ 0 then { self with delete_timer_queue_ := 0 }
    else self
  -- new timer queue
  let qs2 : Queues :=
    if tq = 0 then
      { qs1 with
        created := qs1.created ++ [fresh]
        upcall_functor :=
          Function.update qs1.upcall_functor fresh ACE_Proactor_Handle_Timeout_Upcall.ctor }
    else qs1
  let self2 : ACE_Proactor :=
    if tq = 0 then { self1 with timer_queue_ := fresh, delete_timer_queue_ := 1 }
    else { self1 with timer_queue_ := tq, delete_timer_queue_ := 0 }
  -- Set the proactor in the functor of the timer queue
  if self.delete_timer_queue_ ≠ 0 ∧ tq ≠ 0 ∧ tq = self.timer_queue_ then
    ⟨self2, qs2, Flow.undefined⟩
  else
    ⟨self2,
      { qs2 with
        upcall_functor :=
          Function.update qs2.upcall_functor self2.timer_queue_
            ((qs2.upcall_functor self2.timer_queue_).proactor this).2 },
      Flow.normal⟩

/-- The method `ACE_Proactor::close` (Proactor.cpp:205-232), which is also all the destructor does.
`os_close` is what `ACE_OS::close (completion_port_)` returns when called. -/
def ACE_Proactor.close (self : ACE_Proactor) (qs : Queues) (os_close : Int) :
    Int × ACE_Proactor × Queues :=
  -- Take care of the timer handler
  let self1 : ACE_Proactor :=
    if self.timer_handler_ ≠ 0 then { self with timer_handler_ := 0 } else self
  -- Take care of the timer queue
  let qs2 : Queues :=
    if self1.delete_timer_queue_ ≠ 0 then
      { qs with deleted := qs.deleted ++ [self1.timer_queue_] }
    else qs
  let self2 : ACE_Proactor :=
    if self1.delete_timer_queue_ ≠ 0 then
      { self1 with timer_queue_ := 0, delete_timer_queue_ := 0 }
    else self1
  -- Close the completion port
  if self2.completion_port_ ≠ 0 then
    (os_close, { self2 with completion_port_ := 0 }, qs2)
  else (0, self2, qs2)

/-- The constructor `ACE_Proactor::ACE_Proactor (number_of_threads, tq)`
(Proactor.cpp:172-198).  `port` is what `::CreateIoCompletionPort` returns (null on
failure, which is only logged), `fresh` the address of the `Timer_List` created when
`tq` is null, `timer_handler` the address `ACE_NEW` obtains for the timer handler (null
when the allocation fails; the failure of `activate ()` is only logged).  The setter is
entered with the flag clear, so its call is always defined here. -/
def ACE_Proactor.ctor (this : Nat) (qs : Queues) (number_of_threads : Nat) (tq : Nat)
    (port : Nat) (fresh : Nat) (timer_handler : Nat) : ACE_Proactor × Queues :=
  let self0 : ACE_Proactor := ⟨0, number_of_threads, 0, 0, 0⟩
  -- create the completion port
  let self1 : ACE_Proactor := { self0 with completion_port_ := port }
  -- set the timer queue
  let r := self1.timer_queue this qs tq fresh
  -- Create the timer handler
  ({ r.proactor with timer_handler_ := timer_handler }, r.queues)

/-- A call a user makes on a constructed Proactor that touches the timer queue
ownership: the setter, or `close ()` (the destructor is `close ()`). -/
inductive Op where
  | timer_queue (tq : Nat) (fresh : Nat)
  | close (os_close : Int)
  deriving DecidableEq

/-- One call on the Proactor at address `this`. -/
def ACE_Proactor.step (this : Nat) (st : Installed) : Op → Installed
  | Op.timer_queue tq fresh => st.proactor.timer_queue this st.queues tq fresh
  | Op.close os_close =>
      ⟨(st.proactor.close st.queues os_close).2.1, (st.proactor.close st.queues os_close).2.2,
        Flow.normal⟩

/-- A sequence of calls on the Proactor at address `this`.  The sequence ends at a call
that is undefined: the program has no state after it. -/
def ACE_Proactor.run (this : Nat) : Installed → List Op → Installed
  | st, [] => st
  | st, op :: ops =>
      match st.flow with
      | Flow.normal => ACE_Proactor.run this (ACE_Proactor.step this st op) ops
      | _ => st

/-- Construction of the Proactor at address `this`, with every functor of the store as
in `functors` and empty logs, followed by the calls `ops`. -/
def ACE_Proactor.life (this : Nat) (functors : Nat → ACE_Proactor_Handle_Timeout_Upcall)
    (number_of_threads tq port fresh timer_handler : Nat) (ops : List Op) : Installed :=
  ACE_Proactor.run this
    ⟨(ACE_Proactor.ctor this ⟨functors, [], []⟩ number_of_threads tq port fresh
        timer_handler).1,
      (ACE_Proactor.ctor this ⟨functors, [], []⟩ number_of_threads tq port fresh
        timer_handler).2,
      Flow.normal⟩
    ops

/-- The pending deletion: the installed queue while the flag is set, nothing otherwise. -/
def ACE_Proactor.owned (self : ACE_Proactor) : List Nat :=
  if self.delete_timer_queue_ ≠ 0 then [self.timer_queue_] else []

/-! ## Reporting of construction failures -/

/-- An `ACE_ERROR` record written by the constructor, named after the call that failed. -/
inductive Logged where
  | CreateIoCompletionPort
  | Task_activate
  deriving DecidableEq

/-- The `ACE_ERROR` records of the constructor (Proactor.cpp:185-196): one when the port
is null, one when the timer handler exists and its `activate ()` returns -1.  The
constructor has no other way of telling its caller: it returns no value and raises
nothing. -/
def ACE_Proactor.ctor_log (port : Nat) (timer_handler : Nat) (activate : Int) :
    List Logged :=
  (if port = 0 then [Logged.CreateIoCompletionPort] else []) ++
    (if timer_handler ≠ 0 ∧ activate = -1 then [Logged.Task_activate] else [])

/-! ## The timer handler thread -/

/-- Modelled from the spec: `ACE_Time_Value::msec ()` is not under src; the spec asks for
the duration "in milliseconds".  Whole milliseconds, rounded toward zero. -/
def ACE_Time_Value.msec (t : ACE_Time_Value) : Int :=
  Int.tdiv t 1000

/-- Storing a `long` in a `u_long` variable, 32 bits wide on Win32: the value modulo
`2 ^ 32`. -/
def u_long (x : Int) : Nat :=
  (x % 4294967296).toNat

/-- Modelled from the spec: the wait result "timeout", the Win32 constant `WAIT_TIMEOUT`
(its header is not under src). -/
def WAIT_TIMEOUT : Nat := 258

/-- Modelled from the spec: the wait result "failed", the Win32 constant `WAIT_FAILED`
(its header is not under src). -/
def WAIT_FAILED : Nat := 4294967295

/-- The value of `time` that one turn of the loop of `ACE_Proactor_Timer_Handler::svc`
passes to `::WaitForSingleObject` (Proactor.cpp:69-86).  `q` is the state of the timer
queue, `gettimeofday` what its clock returns.  `time` is a `u_long`, so the test
`time < 0` compares natural numbers. -/
def ACE_Proactor_Timer_Handler.wait_time {σ : Type} (Q : Timer_Queue σ) (q : σ)
    (gettimeofday : ACE_Time_Value) : Nat :=
  -- default value
  let time : Nat := INFINITE
  -- If the timer queue is not empty
  if Q.is_empty q = false then
    -- Get the earliest absolute time
    let absolute_time : ACE_Time_Value := Q.earliest_time q - gettimeofday
    -- time to wait
    let time : Nat := u_long (ACE_Time_Value.msec absolute_time)
    -- Make sure the time is positive
    if time < 0 then 0 else time
  else time

/-- The wait duration as the spec words it: `max(0, earliest_time() - now())` in
milliseconds, or infinite when the queue is empty. -/
def spec_wait_time {σ : Type} (Q : Timer_Queue σ) (q : σ)
    (gettimeofday : ACE_Time_Value) : Int :=
  if Q.is_empty q = true then (INFINITE : Int)
  else max 0 (ACE_Time_Value.msec (Q.earliest_time q - gettimeofday))

/-- What the timer thread meets in one turn of its loop: the state of the timer queue
(other threads change it between turns), the clock, and what `::WaitForSingleObject`
returns. -/
structure Turn (σ : Type) where
  queue : σ
  gettimeofday : ACE_Time_Value
  wait_result : Nat

/-- A call made by the timer thread. -/
inductive Timer_Event where
  | wait (milli_seconds : Nat)
  | expire
  deriving DecidableEq

/-- State of the timer thread after the turns it was given: the calls it made, and the
value `svc` returned, `none` while it is still in its loop. -/
structure Served where
  trace : List Timer_Event
  returned : Option Int
  deriving DecidableEq

/-- The loop of `ACE_Proactor_Timer_Handler::svc` (Proactor.cpp:61-104), run against the
turns in `turns`.  The `return 0` after the `for (;;)` cannot be reached. -/
def ACE_Proactor_Timer_Handler.svc {σ : Type} (Q : Timer_Queue σ) :
    List (Turn σ) → Served
  | [] => ⟨[], none⟩
  | t :: turns =>
      let time := ACE_Proactor_Timer_Handler.wait_time Q t.queue t.gettimeofday
      -- Wait for event upto <time> milli seconds
      let result := t.wait_result
      if result = WAIT_TIMEOUT then
        -- timeout: expire timers
        ⟨Timer_Event.wait time :: Timer_Event.expire ::
            (ACE_Proactor_Timer_Handler.svc Q turns).trace,
          (ACE_Proactor_Timer_Handler.svc Q turns).returned⟩
      else if result = WAIT_FAILED then
        -- error
        ⟨[Timer_Event.wait time], some (-1)⟩
      else
        ⟨Timer_Event.wait time :: (ACE_Proactor_Timer_Handler.svc Q turns).trace,
          (ACE_Proactor_Timer_Handler.svc Q turns).returned⟩

/-- The turns the loop goes through: up to and including the first failed wait. -/
def served_turns {σ : Type} : List (Turn σ) → List (Turn σ)
  | [] => []
  | t :: turns => if t.wait_result = WAIT_FAILED then [t] else t :: served_turns turns

/-- Number of `expire ()` calls in a trace of the timer thread. -/
def expirations (t : List Timer_Event) : Nat :=
  t.count Timer_Event.expire

/-- Number of turns whose wait returned timeout. -/
def timeouts {σ : Type} (turns : List (Turn σ)) : Nat :=
  turns.countP (fun t => decide (t.wait_result = WAIT_TIMEOUT))

/-- A timer queue holding one node that expires at 995000 microseconds. -/
def overdue_queue : Timer_List := ⟨[⟨7, 4, 995000, 0, 0⟩], 1, 3⟩

/-! ## The active demultiplexing object table (`src/TAO/tao/Object_Table.cpp`) -/

/-- The members of `TAO_Object_Table_Entry` that Object_Table.cpp uses. -/
structure TAO_Object_Table_Entry where
  id_ : List Nat
  servant_ : Nat
  is_free_ : Int
  generation_ : Nat
  deriving DecidableEq

/-- The data members of `TAO_Active_Demux_ObjTable` (inherited from `TAO_Linear_ObjTable`):
`table_` is the array obtained from `new TAO_Object_Table_Entry[tablesize_]`. -/
structure TAO_Active_Demux_ObjTable where
  table_ : List TAO_Object_Table_Entry
  next_ : Nat
  tablesize_ : Nat
  deriving DecidableEq

/-- A use of `table_[index]`. -/
inductive Access where
  | read (index : Nat)
  | write (index : Nat)
  deriving DecidableEq

/-- How a table operation ends: it returns, or `ACE_ASSERT` stops the program. -/
inductive Verdict where
  | returned (value : Int)
  | assertion_failed
  deriving DecidableEq

/-- State left by `find`, `bind` or `unbind`: the verdict, the out-parameter `servant`,
the table, and the uses of `table_[index]` in program order. -/
structure Demuxed where
  verdict : Verdict
  servant : Nat
  table : TAO_Active_Demux_ObjTable
  accesses : List Access
  deriving DecidableEq

/-- The expression `table_[index]` as an rvalue: the array element, or, past the end of
the array, whatever `beyond` says the memory there holds. -/
def TAO_Active_Demux_ObjTable.entry (self : TAO_Active_Demux_ObjTable)
    (beyond : Nat → TAO_Object_Table_Entry) (index : Nat) : TAO_Object_Table_Entry :=
  self.table_.getD index (beyond index)

/-- An assignment to a member of `table_[index]`: `f` applied to the array element.  A
store past the end of the array lands in memory that is not part of the table. -/
def TAO_Active_Demux_ObjTable.store (self : TAO_Active_Demux_ObjTable) (index : Nat)
    (f : TAO_Object_Table_Entry → TAO_Object_Table_Entry) : TAO_Active_Demux_ObjTable :=
  { self with table_ := self.table_.modify f index }

/-- The method `TAO_Active_Demux_ObjTable::find` (Object_Table.cpp:207-224).
`parse_object_id id` is what the method of that name (not under src) answers: its
result and the values it leaves in `index` and `generation`.  `checked` says whether
`ACE_ASSERT` is compiled in. -/
def TAO_Active_Demux_ObjTable.find (self : TAO_Active_Demux_ObjTable)
    (parse_object_id : List Nat → Int × Nat × Nat)
    (beyond : Nat → TAO_Object_Table_Entry) (checked : Bool) (id : List Nat)
    (servant : Nat) : Demuxed :=
  let result := (parse_object_id id).1
  let index := (parse_object_id id).2.1
  let generation := (parse_object_id id).2.2
  if result ≠ 0 ∨ index > self.tablesize_ then
    ⟨Verdict.returned (-1), servant, self, []⟩
  else if (self.entry beyond index).generation_ ≠ generation then
    ⟨Verdict.returned (-1), servant, self, [Access.read index]⟩
  else if checked = true ∧ ¬ (self.entry beyond index).is_free_ = 0 then
    ⟨Verdict.assertion_failed, servant, self, [Access.read index, Access.read index]⟩
  else
    ⟨Verdict.returned 0, (self.entry beyond index).servant_, self,
      [Access.read index] ++ (if checked then [Access.read index] else []) ++
        [Access.read index]⟩

/-- The method `TAO_Active_Demux_ObjTable::bind` (Object_Table.cpp:188-205), with the
parameters of `find`. -/
def TAO_Active_Demux_ObjTable.bind (self : TAO_Active_Demux_ObjTable)
    (parse_object_id : List Nat → Int × Nat × Nat)
    (beyond : Nat → TAO_Object_Table_Entry) (checked : Bool) (id : List Nat)
    (servant : Nat) : Demuxed :=
  let result := (parse_object_id id).1
  let index := (parse_object_id id).2.1
  let generation := (parse_object_id id).2.2
  if result ≠ 0 ∨ index > self.tablesize_ then
    ⟨Verdict.returned (-1), servant, self, []⟩
  else if (self.entry beyond index).generation_ ≠ generation then
    ⟨Verdict.returned (-1), servant, self, [Access.read index]⟩
  else if checked = true ∧ ¬ (self.entry beyond index).is_free_ = 0 then
    ⟨Verdict.assertion_failed, servant, self, [Access.read index, Access.read index]⟩
  else
    ⟨Verdict.returned 0, servant,
      self.store index (fun e => { e with servant_ := servant }),
      [Access.read index] ++ (if checked then [Access.read index] else []) ++
        [Access.write index]⟩

/-- The method `TAO_Active_Demux_ObjTable::unbind` (Object_Table.cpp:226-243), with the
parameters of `find`; it has no `ACE_ASSERT`. -/
def TAO_Active_Demux_ObjTable.unbind (self : TAO_Active_Demux_ObjTable)
    (parse_object_id : List Nat → Int × Nat × Nat)
    (beyond : Nat → TAO_Object_Table_Entry) (id : List Nat) (servant : Nat) : Demuxed :=
  let result := (parse_object_id id).1
  let index := (parse_object_id id).2.1
  let generation := (parse_object_id id).2.2
  if result ≠ 0 ∨ index > self.tablesize_ then
    ⟨Verdict.returned (-1), servant, self, []⟩
  else if (self.entry beyond index).generation_ ≠ generation then
    ⟨Verdict.returned (-1), servant, self, [Access.read index]⟩
  else
    ⟨Verdict.returned 0, (self.entry beyond index).servant_,
      self.store index (fun e => { e with is_free_ := 1 }),
      [Access.read index, Access.read index, Access.write index]⟩

/-- The positions of the array that a list of accesses touches outside `0 .. size - 1`. -/
def out_of_range (size : Nat) (accesses : List Access) : List Access :=
  accesses.filter (fun a =>
    match a with
    | Access.read i => decide (size ≤ i)
    | Access.write i => decide (size ≤ i))

/-- A table of two entries, both in use, with generations 1 and 3. -/
def two_entry_table : TAO_Active_Demux_ObjTable :=
  ⟨[⟨[0, 1], 50, 0, 1⟩, ⟨[1, 3], 51, 0, 3⟩], 2, 2⟩

/-- Memory past the end of an array: an entry-shaped region with servant 99, in use,
generation 4. -/
def stray_memory : Nat → TAO_Object_Table_Entry :=
  fun _ => ⟨[], 99, 0, 4⟩

/-- An id parser for ids of two numbers, index then generation; anything else fails. -/
def pair_id : List Nat → Int × Nat × Nat
  | [index, generation] => (0, index, generation)
  | _ => (-1, 0, 0)

/-! ## Lemmas on the free store -/

theorem lookup_filter_ne (l : List (Nat × ACE_Asynch_Result)) (p q : Nat) (h : q ≠ p) :
    (l.filter (fun c => c.1 != p)).lookup q = l.lookup q := by
  induction l with
  | nil => rfl
  | cons c cs ih =>
    obtain ⟨a, b⟩ := c
    by_cases hap : a = p
    · subst hap
      have hq : (q == a) = false := by simpa using h
      simp [List.filter, List.lookup, hq, ih]
    · have hne : (a != p) = true := by simpa using hap
      simp only [List.filter, hne, List.lookup]
      cases hqa : (q == a) <;> simp [ih]

theorem lookup_filter_self (l : List (Nat × ACE_Asynch_Result)) (p : Nat) :
    (l.filter (fun c => c.1 != p)).lookup p = none := by
  induction l with
  | nil => rfl
  | cons c cs ih =>
    obtain ⟨a, b⟩ := c
    by_cases hap : a = p
    · subst hap
      simp [List.filter, ih]
    · have hne : (a != p) = true := by simpa using hap
      have hpa : (p == a) = false := by simpa using fun h : p = a => hap h.symm
      simp [List.filter, hne, List.lookup, hpa, ih]

theorem Heap.deref_delete_ne (h : Heap) (p q : Nat) (hq : q ≠ p) :
    (h.delete p).deref q = h.deref q := by
  unfold Heap.deref Heap.delete
  by_cases h0 : q = 0
  · simp [h0]
  · simp [h0, lookup_filter_ne _ _ _ hq]

theorem Heap.deref_delete_self (h : Heap) (p : Nat) : (h.delete p).deref p = none := by
  unfold Heap.deref Heap.delete
  by_cases h0 : p = 0
  · simp [h0]
  · simp [h0, lookup_filter_self]

theorem Heap.fresh_ne_zero (h : Heap) : h.fresh ≠ 0 := by
  unfold Heap.fresh; omega

theorem le_foldr_max (l : List Nat) (a : Nat) (ha : a ∈ l) : a ≤ l.foldr max 0 := by
  induction l with
  | nil => cases ha
  | cons b bs ih =>
    simp only [List.foldr]
    rcases List.mem_cons.mp ha with h | h
    · subst h; exact le_max_left _ _
    · exact le_trans (ih h) (le_max_right _ _)

theorem Heap.fresh_not_mem (h : Heap) (c : Nat × ACE_Asynch_Result) (hc : c ∈ h.cells) :
    c.1 ≠ h.fresh := by
  have := le_foldr_max (h.cells.map (fun c => c.1)) c.1 (List.mem_map.mpr ⟨c, hc, rfl⟩)
  unfold Heap.fresh; omega

theorem Heap.deref_new (h : Heap) (obj : ACE_Asynch_Result) :
    (h.new obj).2.deref (h.new obj).1 = some obj := by
  unfold Heap.deref Heap.new
  simp [Heap.fresh_ne_zero, List.lookup]

theorem Heap.delete_new (h : Heap) (obj : ACE_Asynch_Result) :
    (h.new obj).2.delete (h.new obj).1 = h := by
  unfold Heap.delete Heap.new
  cases h with
  | mk cells =>
    simp only [List.filter, bne_self_eq_false]
    congr 1
    apply List.filter_eq_self.mpr
    intro c hc
    simpa using Heap.fresh_not_mem ⟨cells⟩ c hc

/-! ## Lemmas on the dispatch path -/

theorem handle_events_dispatch (ETIMEDOUT errno : Nat) (heap : Heap) (d : Dequeue)
    (obj : ACE_Asynch_Result) (hp : d.overlapped ≠ 0)
    (hobj : heap.deref d.overlapped = some obj) :
    (ACE_Proactor.handle_events ETIMEDOUT errno heap d).trace =
        Event.complete d.overlapped d.bytes_transferred d.result d.completion_key
            (dispatched_error errno d) ::
          (obj.complete d.bytes_transferred d.result d.completion_key
            (dispatched_error errno d)).1.map Event.upcall ++
          [Event.destroy d.overlapped] ∧
      (ACE_Proactor.handle_events ETIMEDOUT errno heap d).heap = heap.delete d.overlapped ∧
      (ACE_Proactor.handle_events ETIMEDOUT errno heap d).errno = dispatched_error errno d ∧
      (ACE_Proactor.handle_events ETIMEDOUT errno heap d).outcome =
        (if (obj.complete d.bytes_transferred d.result d.completion_key
            (dispatched_error errno d)).2 then Outcome.raised else Outcome.returned 0) := by
  have hc : ¬ (d.result = 0 ∧ d.overlapped = 0) := fun h => hp h.2
  unfold ACE_Proactor.handle_events ACE_Proactor.application_specific_code
    ACE_SEH_TRY_FINALLY dispatched_error
  simp only [hc, if_false, hobj]
  cases hr : (obj.complete d.bytes_transferred d.result d.completion_key
      (if d.result = 0 then d.last_error else errno)).2 <;> simp [hr]

theorem completions_append (p : Nat) (s t : List Event) :
    completions p (s ++ t) = completions p s + completions p t := by
  simp [completions, List.countP_append]

theorem destructions_append (p : Nat) (s t : List Event) :
    destructions p (s ++ t) = destructions p s + destructions p t := by
  simp [destructions, List.countP_append]

theorem completions_upcalls (p : Nat) (us : List Upcall) :
    completions p (us.map Event.upcall) = 0 := by
  induction us with
  | nil => rfl
  | cons u us ih => simp [completions, List.countP_cons]

theorem destructions_upcalls (p : Nat) (us : List Upcall) :
    destructions p (us.map Event.upcall) = 0 := by
  induction us with
  | nil => rfl
  | cons u us ih => simp [destructions, List.countP_cons]

/-- Counts over the trace shape of the dispatch path. -/
theorem counts_dispatch_shape (p q b k e : Nat) (s : Int) (us : List Upcall) :
    completions p (Event.complete q b s k e :: us.map Event.upcall ++ [Event.destroy q]) =
        (if q = p then 1 else 0) ∧
      destructions p (Event.complete q b s k e :: us.map Event.upcall ++ [Event.destroy q]) =
        (if q = p then 1 else 0) := by
  have h1 := completions_upcalls p us
  have h2 := destructions_upcalls p us
  constructor
  · have : completions p (Event.complete q b s k e :: us.map Event.upcall ++ [Event.destroy q])
        = completions p [Event.complete q b s k e] + completions p (us.map Event.upcall)
          + completions p [Event.destroy q] := by
      rw [← completions_append, ← completions_append]; rfl
    rw [this, h1]
    by_cases hq : q = p <;> simp [completions, hq]
  · have : destructions p (Event.complete q b s k e :: us.map Event.upcall ++ [Event.destroy q])
        = destructions p [Event.complete q b s k e] + destructions p (us.map Event.upcall)
          + destructions p [Event.destroy q] := by
      rw [← destructions_append, ← destructions_append]; rfl
    rw [this, h2]
    by_cases hq : q = p <;> simp [destructions, hq]

/-- A call of `handle_events` leaves every packet other than the dequeued one alone:
it stays where it is and the trace has no `complete` and no `delete` for it. -/
theorem handle_events_other (ETIMEDOUT errno : Nat) (heap : Heap) (d : Dequeue) (p : Nat)
    (hp : d.overlapped ≠ p) :
    (ACE_Proactor.handle_events ETIMEDOUT errno heap d).heap.deref p = heap.deref p ∧
      completions p (ACE_Proactor.handle_events ETIMEDOUT errno heap d).trace = 0 ∧
      destructions p (ACE_Proactor.handle_events ETIMEDOUT errno heap d).trace = 0 := by
  by_cases hc : d.result = 0 ∧ d.overlapped = 0
  · unfold ACE_Proactor.handle_events
    simp only [hc, and_self, if_true]
    by_cases h258 : d.last_error = 258 <;> simp [h258, completions, destructions]
  · cases hobj : heap.deref d.overlapped with
    | none =>
      unfold ACE_Proactor.handle_events ACE_Proactor.application_specific_code
        ACE_SEH_TRY_FINALLY
      simp only [hc, if_false, hobj]
      refine ⟨Heap.deref_delete_ne _ _ _ (Ne.symm hp), ?_, ?_⟩
      · simp [completions, hp]
      · simp [destructions, hp]
    | some obj =>
      have h0 : d.overlapped ≠ 0 := by
        intro h0
        simp [Heap.deref, h0] at hobj
      obtain ⟨ht, hh, -, -⟩ := handle_events_dispatch ETIMEDOUT errno heap d obj h0 hobj
      rw [ht, hh]
      refine ⟨Heap.deref_delete_ne _ _ _ (Ne.symm hp), ?_, ?_⟩
      · simpa [hp] using (counts_dispatch_shape p d.overlapped _ _ _ _ _).1
      · simpa [hp] using (counts_dispatch_shape p d.overlapped _ _ _ _ _).2

theorem run_handle_events_counts (ETIMEDOUT : Nat) (ds : List Dequeue) :
    ∀ (errno : Nat) (heap : Heap),
      (∀ d ∈ ds, d.overlapped ≠ 0 → (heap.deref d.overlapped).isSome = true) →
      (delivered ds).Nodup →
      ∀ p, p ≠ 0 →
        completions p (ACE_Proactor.run_handle_events ETIMEDOUT errno heap ds) =
            (if p ∈ delivered ds then 1 else 0) ∧
          destructions p (ACE_Proactor.run_handle_events ETIMEDOUT errno heap ds) =
            (if p ∈ delivered ds then 1 else 0) := by
  induction ds with
  | nil =>
    intro errno heap _ _ p _
    simp [ACE_Proactor.run_handle_events, delivered, completions, destructions]
  | cons d ds ih =>
    intro errno heap hlive hnd p hp
    have hlive_d := hlive d (List.mem_cons_self _ _)
    simp only [ACE_Proactor.run_handle_events, completions_append, destructions_append]
    by_cases hd0 : d.overlapped = 0
    · -- no packet in this answer
      have hdel : delivered (d :: ds) = delivered ds := by
        simp [delivered, List.filter, hd0]
      rw [hdel] at hnd ⊢
      have hne : d.overlapped ≠ p := by rw [hd0]; exact Ne.symm hp
      obtain ⟨-, hc, hx⟩ := handle_events_other ETIMEDOUT errno heap d p hne
      have hrest := ih (ACE_Proactor.handle_events ETIMEDOUT errno heap d).errno
        (ACE_Proactor.handle_events ETIMEDOUT errno heap d).heap
        (fun e he he0 => by
          have hne2 : d.overlapped ≠ e.overlapped := by rw [hd0]; exact Ne.symm he0
          rw [(handle_events_other ETIMEDOUT errno heap d e.overlapped hne2).1]
          exact hlive e (List.mem_cons_of_mem _ he) he0)
        hnd p hp
      rw [hc, hx, hrest.1, hrest.2]
      simp
    · have hdel : delivered (d :: ds) = d.overlapped :: delivered ds := by
        simp [delivered, List.filter, hd0]
      rw [hdel] at hnd ⊢
      have hnotin : d.overlapped ∉ delivered ds := (List.nodup_cons.mp hnd).1
      have hnd2 : (delivered ds).Nodup := (List.nodup_cons.mp hnd).2
      have hrest := ih (ACE_Proactor.handle_events ETIMEDOUT errno heap d).errno
        (ACE_Proactor.handle_events ETIMEDOUT errno heap d).heap
        (fun e he he0 => by
          have hne2 : d.overlapped ≠ e.overlapped := by
            intro heq
            apply hnotin
            rw [heq]
            simp only [delivered, List.mem_filter, List.mem_map]
            exact ⟨⟨e, he, rfl⟩, by simpa using he0⟩
          rw [(handle_events_other ETIMEDOUT errno heap d e.overlapped hne2).1]
          exact hlive e (List.mem_cons_of_mem _ he) he0)
        hnd2 p hp
      obtain ⟨obj, hobj⟩ := Option.isSome_iff_exists.mp (hlive_d hd0)
      obtain ⟨ht, -, -, -⟩ := handle_events_dispatch ETIMEDOUT errno heap d obj hd0 hobj
      by_cases hpq : d.overlapped = p
      · have hpn : p ∉ delivered ds := by rw [← hpq]; exact hnotin
        rw [ht, (counts_dispatch_shape p d.overlapped _ _ _ _ _).1,
          (counts_dispatch_shape p d.overlapped _ _ _ _ _).2, hrest.1, hrest.2]
        simp [hpq, hpn]
      · obtain ⟨-, hc, hx⟩ := handle_events_other ETIMEDOUT errno heap d p hpq
        rw [hc, hx, hrest.1, hrest.2]
        have : p ≠ d.overlapped := Ne.symm hpq
        simp [this]

/-! ## `handle_events` -/

/-- C1 (the code departs from the claim).  A thread whose `errno` is 5 on entry dequeues,
with OS result TRUE, the live packet at address 1 (10 bytes, completion key 3):
`handle_events` calls `complete` on the packet with success 1 and key 3 but with error 5,
the stale `errno`, not 0; it then deletes the packet and returns 0. -/
theorem handle_events_success_passes_stale_errno :
    (ACE_Proactor.handle_events 10060 5 one_packet_heap ⟨1, 10, 3, 1, 0⟩).trace =
        [Event.complete 1 10 1 3 5, Event.destroy 1] ∧
      (ACE_Proactor.handle_events 10060 5 one_packet_heap ⟨1, 10, 3, 1, 0⟩).outcome =
        Outcome.returned 0 := by
  constructor <;> rfl

/-- C2.  A call of `handle_events` that dequeues a live, non-null packet calls its
`complete` exactly once and deletes it exactly once, the `delete` coming last, after the
upcalls of the callback, whether the callback returns or raises (in which case the call
unwinds after the `delete`).  Over any sequence of calls in which the non-null packets
handed out are live and pairwise distinct, every packet that was handed out is completed
exactly once and deleted exactly once, and no other packet is completed or deleted. -/
theorem handle_events_completes_and_destroys_once (ETIMEDOUT : Nat) :
    (∀ (errno : Nat) (heap : Heap) (d : Dequeue) (obj : ACE_Asynch_Result),
      d.overlapped ≠ 0 → heap.deref d.overlapped = some obj →
      ∃ error : Nat,
        (ACE_Proactor.handle_events ETIMEDOUT errno heap d).trace =
            Event.complete d.overlapped d.bytes_transferred d.result d.completion_key error ::
              (obj.complete d.bytes_transferred d.result d.completion_key error).1.map
                Event.upcall ++ [Event.destroy d.overlapped] ∧
          (ACE_Proactor.handle_events ETIMEDOUT errno heap d).outcome =
            (if (obj.complete d.bytes_transferred d.result d.completion_key error).2
              then Outcome.raised else Outcome.returned 0) ∧
          (ACE_Proactor.handle_events ETIMEDOUT errno heap d).heap.deref d.overlapped = none ∧
          completions d.overlapped
            (ACE_Proactor.handle_events ETIMEDOUT errno heap d).trace = 1 ∧
          destructions d.overlapped
            (ACE_Proactor.handle_events ETIMEDOUT errno heap d).trace = 1) ∧
    (∀ (errno : Nat) (heap : Heap) (ds : List Dequeue),
      (∀ d ∈ ds, d.overlapped ≠ 0 → (heap.deref d.overlapped).isSome = true) →
      (delivered ds).Nodup →
      ∀ p, p ≠ 0 →
        completions p (ACE_Proactor.run_handle_events ETIMEDOUT errno heap ds) =
            (if p ∈ delivered ds then 1 else 0) ∧
          destructions p (ACE_Proactor.run_handle_events ETIMEDOUT errno heap ds) =
            (if p ∈ delivered ds then 1 else 0)) := by
  refine ⟨?_, fun errno heap ds => run_handle_events_counts ETIMEDOUT ds errno heap⟩
  intro errno heap d obj hp hobj
  obtain ⟨ht, hh, -, ho⟩ := handle_events_dispatch ETIMEDOUT errno heap d obj hp hobj
  refine ⟨dispatched_error errno d, ht, ho, ?_, ?_, ?_⟩
  · rw [hh]; exact Heap.deref_delete_self _ _
  · rw [ht]; simpa using (counts_dispatch_shape d.overlapped d.overlapped _ _ _ _ _).1
  · rw [ht]; simpa using (counts_dispatch_shape d.overlapped d.overlapped _ _ _ _ _).2

/-- Instance of C2: a worker receives packet 2 (failed operation), a timeout, then
packet 1, whose callback raises; packet 1 is completed once and deleted once. -/
theorem handle_events_completes_and_destroys_once_witness :
    completions 1 (ACE_Proactor.run_handle_events 10060 0 two_packet_heap
        [⟨0, 0, 0, 2, 64⟩, ⟨0, 0, 0, 0, 258⟩, ⟨1, 8, 0, 1, 0⟩]) = 1 ∧
      destructions 1 (ACE_Proactor.run_handle_events 10060 0 two_packet_heap
        [⟨0, 0, 0, 2, 64⟩, ⟨0, 0, 0, 0, 258⟩, ⟨1, 8, 0, 1, 0⟩]) = 1 :=
  (handle_events_completes_and_destroys_once 10060).2 0 two_packet_heap
    [⟨0, 0, 0, 2, 64⟩, ⟨0, 0, 0, 0, 258⟩, ⟨1, 8, 0, 1, 0⟩]
    (by decide) (by decide) 1 (by decide)

/-- C3.  When the dequeue fails (result FALSE) with a null packet, `handle_events` makes
no call on any packet and leaves the free store as it is; it returns 0 with `errno` set
to `ETIMEDOUT` when the OS error is the wait-timeout code 258, and -1 for every other OS
error.  On an empty completion queue, `handle_events (0)` returns 0 with `ETIMEDOUT`. -/
theorem handle_events_null_failure (ETIMEDOUT errno : Nat) (heap : Heap) (d : Dequeue)
    (hres : d.result = 0) (hnull : d.overlapped = 0) :
    (ACE_Proactor.handle_events ETIMEDOUT errno heap d).trace = [] ∧
      (ACE_Proactor.handle_events ETIMEDOUT errno heap d).heap = heap ∧
      (d.last_error = 258 →
        (ACE_Proactor.handle_events ETIMEDOUT errno heap d).outcome = Outcome.returned 0 ∧
        (ACE_Proactor.handle_events ETIMEDOUT errno heap d).errno = ETIMEDOUT) ∧
      (d.last_error ≠ 258 →
        (ACE_Proactor.handle_events ETIMEDOUT errno heap d).outcome = Outcome.returned (-1)) ∧
      (∀ last_error : Nat, ∃ d0 : Dequeue,
        GetQueuedCompletionStatus [] 0 last_error = some (d0, []) ∧
        (ACE_Proactor.handle_events ETIMEDOUT errno heap d0).outcome = Outcome.returned 0 ∧
        (ACE_Proactor.handle_events ETIMEDOUT errno heap d0).errno = ETIMEDOUT ∧
        (ACE_Proactor.handle_events ETIMEDOUT errno heap d0).trace = []) := by
  have hc : d.result = 0 ∧ d.overlapped = 0 := ⟨hres, hnull⟩
  refine ⟨?_, ?_, ?_, ?_, ?_⟩
  · unfold ACE_Proactor.handle_events
    by_cases h : d.last_error = 258 <;> simp [hc, h]
  · unfold ACE_Proactor.handle_events
    by_cases h : d.last_error = 258 <;> simp [hc, h]
  · intro h
    unfold ACE_Proactor.handle_events
    simp [hc, h]
  · intro h
    unfold ACE_Proactor.handle_events
    simp [hc, h]
  · intro last_error
    refine ⟨⟨0, 0, 0, 0, 258⟩, ?_, ?_, ?_, ?_⟩
    · simp [GetQueuedCompletionStatus, INFINITE]
    · simp [ACE_Proactor.handle_events]
    · simp [ACE_Proactor.handle_events]
    · simp [ACE_Proactor.handle_events]

/-- Instance of C3: the wait timed out (error 258) on a thread whose `errno` was 0. -/
theorem handle_events_null_failure_witness :
    (ACE_Proactor.handle_events 10060 0 one_packet_heap ⟨0, 0, 0, 0, 258⟩).outcome =
        Outcome.returned 0 ∧
      (ACE_Proactor.handle_events 10060 0 one_packet_heap ⟨0, 0, 0, 0, 258⟩).errno = 10060 :=
  (handle_events_null_failure 10060 0 one_packet_heap ⟨0, 0, 0, 0, 258⟩ rfl rfl).2.2.1 rfl

/-- C4.  When the dequeue fails (result FALSE) but hands out a live, non-null packet,
`handle_events` takes the dispatch path: it calls `complete` on the packet with success
FALSE and with the OS error captured right after the dequeue, deletes the packet, and
never returns -1: it returns 0 whenever the callback returns. -/
theorem handle_events_failed_operation (ETIMEDOUT errno : Nat) (heap : Heap) (d : Dequeue)
    (obj : ACE_Asynch_Result) (hres : d.result = 0) (hp : d.overlapped ≠ 0)
    (hobj : heap.deref d.overlapped = some obj) :
    (ACE_Proactor.handle_events ETIMEDOUT errno heap d).trace =
        Event.complete d.overlapped d.bytes_transferred 0 d.completion_key d.last_error ::
          (obj.complete d.bytes_transferred 0 d.completion_key d.last_error).1.map
            Event.upcall ++ [Event.destroy d.overlapped] ∧
      (ACE_Proactor.handle_events ETIMEDOUT errno heap d).heap = heap.delete d.overlapped ∧
      (ACE_Proactor.handle_events ETIMEDOUT errno heap d).heap.deref d.overlapped = none ∧
      (ACE_Proactor.handle_events ETIMEDOUT errno heap d).outcome ≠ Outcome.returned (-1) ∧
      ((obj.complete d.bytes_transferred 0 d.completion_key d.last_error).2 = false →
        (ACE_Proactor.handle_events ETIMEDOUT errno heap d).outcome = Outcome.returned 0) := by
  obtain ⟨ht, hh, -, ho⟩ := handle_events_dispatch ETIMEDOUT errno heap d obj hp hobj
  have he : dispatched_error errno d = d.last_error := by simp [dispatched_error, hres]
  rw [he, hres] at ht ho
  refine ⟨ht, hh, ?_, ?_, ?_⟩
  · rw [hh]; exact Heap.deref_delete_self _ _
  · rw [ho]
    cases (obj.complete d.bytes_transferred 0 d.completion_key d.last_error).2 <;> simp
  · intro hret
    rw [ho, hret]; rfl

/-- Instance of C4: packet 2 of the two-packet store, operation failed with error 64. -/
theorem handle_events_failed_operation_witness :
    (ACE_Proactor.handle_events 10060 0 two_packet_heap ⟨0, 0, 9, 2, 64⟩).trace =
        [Event.complete 2 0 0 9 64, Event.destroy 2] ∧
      (ACE_Proactor.handle_events 10060 0 two_packet_heap ⟨0, 0, 9, 2, 64⟩).outcome =
        Outcome.returned 0 :=
  ⟨(handle_events_failed_operation 10060 0 two_packet_heap ⟨0, 0, 9, 2, 64⟩ io_packet
      rfl (by decide) rfl).1,
    (handle_events_failed_operation 10060 0 two_packet_heap ⟨0, 0, 9, 2, 64⟩ io_packet
      rfl (by decide) rfl).2.2.2.2 rfl⟩

/-! ## `schedule_timer` and `register_handle` -/

/-- C5.  With the lock of the queue held, `schedule_timer (handler, act, time, interval)`
inserts `(handler, act, now + time, interval)` into the timer queue.  If the insertion
answers -1 it returns -1 and does not signal.  Otherwise it signals the timer event
exactly when `earliest_time ()` after the insertion is `now + time`; it returns the id
the queue assigned, unless that signal fails, in which case it cancels that id and
returns -1. -/
theorem schedule_timer_inserts_and_signals {σ : Type} (Q : Timer_Queue σ) (q : σ)
    (now : ACE_Time_Value) (signal : Int) (handler act : Nat)
    (time interval : ACE_Time_Value) :
    ((Q.schedule q handler act (now + time) interval).1 = -1 →
      (ACE_Proactor.schedule_timer Q q now true signal handler act time interval).result = -1 ∧
      (ACE_Proactor.schedule_timer Q q now true signal handler act time interval).signals = 0 ∧
      (ACE_Proactor.schedule_timer Q q now true signal handler act time interval).queue =
        (Q.schedule q handler act (now + time) interval).2) ∧
    ((Q.schedule q handler act (now + time) interval).1 ≠ -1 →
      ((ACE_Proactor.schedule_timer Q q now true signal handler act time interval).signals = 1 ↔
        Q.earliest_time (Q.schedule q handler act (now + time) interval).2 = now + time) ∧
      ((ACE_Proactor.schedule_timer Q q now true signal handler act time interval).signals = 0 ↔
        Q.earliest_time (Q.schedule q handler act (now + time) interval).2 ≠ now + time) ∧
      ((Q.earliest_time (Q.schedule q handler act (now + time) interval).2 ≠ now + time ∨
          signal ≠ -1) →
        (ACE_Proactor.schedule_timer Q q now true signal handler act time interval).result =
          (Q.schedule q handler act (now + time) interval).1 ∧
        (ACE_Proactor.schedule_timer Q q now true signal handler act time interval).queue =
          (Q.schedule q handler act (now + time) interval).2) ∧
      (Q.earliest_time (Q.schedule q handler act (now + time) interval).2 = now + time →
        signal = -1 →
        (ACE_Proactor.schedule_timer Q q now true signal handler act time interval).result = -1 ∧
        (ACE_Proactor.schedule_timer Q q now true signal handler act time interval).queue =
          (Q.cancel (Q.schedule q handler act (now + time) interval).2
            (Q.schedule q handler act (now + time) interval).1).2)) := by
  unfold ACE_Proactor.schedule_timer
  constructor
  · intro hfail
    simp [hfail]
  · intro hok
    by_cases hearly : Q.earliest_time (Q.schedule q handler act (now + time) interval).2 =
        now + time
    · by_cases hsig : signal = -1 <;> simp [hok, hearly, hsig]
    · simp [hok, hearly]

/-- Instance of C5 on the list queue: the first timer of an empty queue is the earliest,
the signal fails, so the timer is cancelled again and -1 is returned. -/
theorem schedule_timer_inserts_and_signals_witness :
    (ACE_Proactor.schedule_timer Timer_List.queue ⟨[], 0, 4⟩ 1000 true (-1) 7 4 50 0).result
        = -1 ∧
      (ACE_Proactor.schedule_timer Timer_List.queue ⟨[], 0, 4⟩ 1000 true (-1) 7 4 50 0).queue
        = ⟨[], 1, 3⟩ :=
  ((schedule_timer_inserts_and_signals Timer_List.queue ⟨[], 0, 4⟩ 1000 (-1) 7 4 50 0).2
    (by decide)).2.2.2 (by decide) rfl

/-- C6.  `register_handle` returns -1 exactly when the OS association fails (null
result) with an error other than `ERROR_INVALID_PARAMETER`, and 0 in every other case; it
changes no data member of the Proactor.  Against an OS that associates a handle on first
use and answers "already associated" afterwards, registering the same handle and key
twice returns 0 both times. -/
theorem register_handle_result (self : ACE_Proactor) (errno : Nat) :
    (∀ (sys : Nat → Nat → Nat → Nat → Nat × Nat) (handle key : Nat),
      ((self.register_handle errno sys handle key).result = -1 ↔
        (sys handle self.completion_port_ key self.number_of_threads_).1 = 0 ∧
        (sys handle self.completion_port_ key self.number_of_threads_).2 ≠
          ERROR_INVALID_PARAMETER) ∧
      ((self.register_handle errno sys handle key).result ≠ -1 →
        (self.register_handle errno sys handle key).result = 0) ∧
      (self.register_handle errno sys handle key).proactor = self) ∧
    (∀ (os : Win32) (handle key : Nat),
      (self.register_handle errno os.sys handle key).result = 0 ∧
      ((self.register_handle errno os.sys handle key).proactor.register_handle
        (self.register_handle errno os.sys handle key).errno
        (os.after self handle key).sys handle key).result = 0) := by
  constructor
  · intro sys handle key
    unfold ACE_Proactor.register_handle
    by_cases hcp : (sys handle self.completion_port_ key self.number_of_threads_).1 = 0
    · by_cases herr : (sys handle self.completion_port_ key self.number_of_threads_).2 =
          ERROR_INVALID_PARAMETER <;> simp [hcp, herr]
    · simp [hcp]
  · intro os handle key
    have hself : (self.register_handle errno os.sys handle key).proactor = self := by
      unfold ACE_Proactor.register_handle
      dsimp only
      split_ifs <;> rfl
    rw [hself]
    unfold ACE_Proactor.register_handle Win32.sys Win32.after CreateIoCompletionPort
    by_cases hmem : handle ∈ os.associated
    · simp [hmem]
    · by_cases hport : self.completion_port_ = 0 <;> simp [hmem, hport]

/-! ## The timeout upcall -/

theorem lookup_none_of_absent (l : List (Nat × ACE_Asynch_Result)) (p : Nat)
    (h : ∀ c ∈ l, c.1 ≠ p) : l.lookup p = none := by
  induction l with
  | nil => rfl
  | cons c cs ih =>
    obtain ⟨a, b⟩ := c
    have hpa : (p == a) = false := by
      have := h (a, b) (List.mem_cons_self _ _)
      simpa using fun hpa : p = a => this hpa.symm
    simp only [List.lookup, hpa]
    exact ih (fun c hc => h c (List.mem_cons_of_mem _ hc))

theorem Heap.deref_fresh (h : Heap) : h.deref h.fresh = none := by
  unfold Heap.deref
  simp only [Heap.fresh_ne_zero, if_false]
  exact lookup_none_of_absent _ _ (fun c hc => Heap.fresh_not_mem h c hc)

theorem Heap.deref_new_ne (h : Heap) (obj : ACE_Asynch_Result) (q : Nat)
    (hq : q ≠ h.fresh) : (h.new obj).2.deref q = h.deref q := by
  unfold Heap.deref Heap.new
  have hqf : (q == h.fresh) = false := by simpa using hq
  by_cases h0 : q = 0
  · simp [h0]
  · simp [h0, List.lookup, hqf]

/-- The three ways the functor call can go: bound and post accepted, bound and post
refused, unbound. -/
theorem operator_effect (self : ACE_Proactor_Handle_Timeout_Upcall)
    (mem : Nat → ACE_Proactor) (heap : Heap) (ports : Nat → List QEntry)
    (handler : ACE_Handler) (act : Nat) (time : ACE_Time_Value) :
    (self.proactor_ ≠ 0 →
      (self.operator mem true heap ports handler act time).result = 0 ∧
      (self.operator mem true heap ports handler act time).ports
          (mem self.proactor_).completion_port_ =
        ports (mem self.proactor_).completion_port_ ++ [⟨0, 0, heap.fresh, 0⟩] ∧
      (∀ port, port ≠ (mem self.proactor_).completion_port_ →
        (self.operator mem true heap ports handler act time).ports port = ports port) ∧
      heap.fresh ≠ 0 ∧ heap.deref heap.fresh = none ∧
      (self.operator mem true heap ports handler act time).heap.deref heap.fresh =
        some (ACE_Asynch_Result.Asynch_Timer handler act time) ∧
      (∀ q, q ≠ heap.fresh →
        (self.operator mem true heap ports handler act time).heap.deref q = heap.deref q) ∧
      (self.operator mem true heap ports handler act time).trace =
        [Event.alloc heap.fresh,
          Event.post (mem self.proactor_).completion_port_ 0 0 heap.fresh]) ∧
    (self.proactor_ ≠ 0 →
      (self.operator mem false heap ports handler act time).result = -1 ∧
      (self.operator mem false heap ports handler act time).ports = ports ∧
      (self.operator mem false heap ports handler act time).heap = heap ∧
      (self.operator mem false heap ports handler act time).trace =
        [Event.alloc heap.fresh, Event.destroy heap.fresh]) ∧
    (self.proactor_ = 0 → ∀ accepted : Bool,
      (self.operator mem accepted heap ports handler act time).result = -1 ∧
      (self.operator mem accepted heap ports handler act time).ports = ports ∧
      (self.operator mem accepted heap ports handler act time).heap = heap ∧
      (self.operator mem accepted heap ports handler act time).trace = []) := by
  refine ⟨?_, ?_, ?_⟩
  · intro hb
    unfold ACE_Proactor_Handle_Timeout_Upcall.operator PostQueuedCompletionStatus
    simp only [hb, if_false, if_true, one_ne_zero]
    refine ⟨trivial, ?_, ?_, Heap.fresh_ne_zero heap, Heap.deref_fresh heap, ?_, ?_, rfl⟩
    · simp [Heap.new]
    · intro port hport
      simp [Function.update, hport]
    · exact Heap.deref_new heap _
    · intro q hq
      exact Heap.deref_new_ne heap _ q hq
  · intro hb
    unfold ACE_Proactor_Handle_Timeout_Upcall.operator PostQueuedCompletionStatus
    simp only [hb, if_false, if_true]
    refine ⟨rfl, rfl, ?_, rfl⟩
    exact Heap.delete_new heap _
  · intro hu accepted
    unfold ACE_Proactor_Handle_Timeout_Upcall.operator
    simp [hu]

/-- C7.  A functor bound to a Proactor allocates a fresh `Asynch_Timer` for
`(handler, act, time)` and posts exactly one packet to the completion port of that
Proactor: zero bytes, null key, the new object as overlapped pointer; it returns 0.  When
the post fails it returns -1, every queue is as before and the object has been deleted
again.  An unbound functor returns -1 and neither allocates nor posts. -/
theorem timeout_upcall_posts_one_packet (self : ACE_Proactor_Handle_Timeout_Upcall)
    (mem : Nat → ACE_Proactor) (heap : Heap) (ports : Nat → List QEntry)
    (handler : ACE_Handler) (act : Nat) (time : ACE_Time_Value) :
    (self.proactor_ ≠ 0 →
      (self.operator mem true heap ports handler act time).result = 0 ∧
      (self.operator mem true heap ports handler act time).ports
          (mem self.proactor_).completion_port_ =
        ports (mem self.proactor_).completion_port_ ++ [⟨0, 0, heap.fresh, 0⟩] ∧
      (∀ port, port ≠ (mem self.proactor_).completion_port_ →
        (self.operator mem true heap ports handler act time).ports port = ports port) ∧
      heap.fresh ≠ 0 ∧ heap.deref heap.fresh = none ∧
      (self.operator mem true heap ports handler act time).heap.deref heap.fresh =
        some (ACE_Asynch_Result.Asynch_Timer handler act time) ∧
      (∀ q, q ≠ heap.fresh →
        (self.operator mem true heap ports handler act time).heap.deref q = heap.deref q) ∧
      (self.operator mem true heap ports handler act time).trace =
        [Event.alloc heap.fresh,
          Event.post (mem self.proactor_).completion_port_ 0 0 heap.fresh]) ∧
    (self.proactor_ ≠ 0 →
      (self.operator mem false heap ports handler act time).result = -1 ∧
      (self.operator mem false heap ports handler act time).ports = ports ∧
      (self.operator mem false heap ports handler act time).heap = heap ∧
      (self.operator mem false heap ports handler act time).trace =
        [Event.alloc heap.fresh, Event.destroy heap.fresh]) ∧
    (self.proactor_ = 0 → ∀ accepted : Bool,
      (self.operator mem accepted heap ports handler act time).result = -1 ∧
      (self.operator mem accepted heap ports handler act time).ports = ports ∧
      (self.operator mem accepted heap ports handler act time).heap = heap ∧
      (self.operator mem accepted heap ports handler act time).trace = []) :=
  operator_effect self mem heap ports handler act time

/-- Instance of C7: a functor bound to the Proactor at address 9, whose port is 5. -/
theorem timeout_upcall_posts_one_packet_witness :
    ((⟨9⟩ : ACE_Proactor_Handle_Timeout_Upcall).operator (fun _ => ⟨5, 1, 0, 0, 0⟩) true
        one_packet_heap (fun _ => []) quiet_handler 4 100).ports 5 = [⟨0, 0, 2, 0⟩] ∧
      ((⟨9⟩ : ACE_Proactor_Handle_Timeout_Upcall).operator (fun _ => ⟨5, 1, 0, 0, 0⟩) false
        one_packet_heap (fun _ => []) quiet_handler 4 100).result = -1 :=
  ⟨((timeout_upcall_posts_one_packet ⟨9⟩ (fun _ => ⟨5, 1, 0, 0, 0⟩) one_packet_heap
      (fun _ => []) quiet_handler 4 100).1 (by decide)).2.1,
    ((timeout_upcall_posts_one_packet ⟨9⟩ (fun _ => ⟨5, 1, 0, 0, 0⟩) one_packet_heap
      (fun _ => []) quiet_handler 4 100).2.1 (by decide)).1⟩

/-- C8.  Let the timeout upcall post a packet for `(handler, act, time)` and let a later
dequeue hand that packet to `handle_events`, with any result flag, byte count, completion
key and error.  Then `handle_events` calls `complete` on it, which makes exactly one
upcall, `handler.handle_timeout (time, act)`, and the packet is deleted afterwards.  If
the queue of the port was empty before the post, the OS dequeue hands out that packet. -/
theorem timer_packet_delivers_one_handle_timeout (self : ACE_Proactor_Handle_Timeout_Upcall)
    (mem : Nat → ACE_Proactor) (accepted : Bool) (heap : Heap) (ports : Nat → List QEntry)
    (handler : ACE_Handler) (act : Nat) (time : ACE_Time_Value)
    (ETIMEDOUT errno : Nat) (d : Dequeue)
    (hposted : Event.post (mem self.proactor_).completion_port_ 0 0 d.overlapped ∈
      (self.operator mem accepted heap ports handler act time).trace) :
    (∃ error : Nat,
      (ACE_Proactor.handle_events ETIMEDOUT errno
          (self.operator mem accepted heap ports handler act time).heap d).trace =
        [Event.complete d.overlapped d.bytes_transferred d.result d.completion_key error,
          Event.upcall (Upcall.handle_timeout handler.id time act),
          Event.destroy d.overlapped]) ∧
      upcalls (ACE_Proactor.handle_events ETIMEDOUT errno
          (self.operator mem accepted heap ports handler act time).heap d).trace =
        [Upcall.handle_timeout handler.id time act] ∧
      (ACE_Proactor.handle_events ETIMEDOUT errno
          (self.operator mem accepted heap ports handler act time).heap d).heap.deref
        d.overlapped = none ∧
      (ports (mem self.proactor_).completion_port_ = [] →
        ∀ (milli_seconds last_error : Nat), ∃ d0 : Dequeue,
          GetQueuedCompletionStatus
            ((self.operator mem accepted heap ports handler act time).ports
              (mem self.proactor_).completion_port_) milli_seconds last_error =
            some (d0, []) ∧ d0.overlapped = d.overlapped) := by
  have hb : self.proactor_ ≠ 0 := by
    intro hu
    have := (operator_effect self mem heap ports handler act time).2.2 hu accepted
    rw [this.2.2.2] at hposted
    cases hposted
  have hacc : accepted = true := by
    cases accepted with
    | true => rfl
    | false =>
      have := (operator_effect self mem heap ports handler act time).2.1 hb
      rw [this.2.2.2] at hposted
      simp at hposted
  subst hacc
  obtain ⟨-, hq, -, hne, -, hobj, -, htr⟩ :=
    (operator_effect self mem heap ports handler act time).1 hb
  have hd : d.overlapped = heap.fresh := by
    rw [htr] at hposted
    simpa using hposted
  have hp : d.overlapped ≠ 0 := by rw [hd]; exact hne
  rw [← hd] at hobj
  obtain ⟨ht, hh, -, -⟩ := handle_events_dispatch ETIMEDOUT errno _ d _ hp hobj
  refine ⟨⟨dispatched_error errno d, ?_⟩, ?_, ?_, ?_⟩
  · rw [ht]; rfl
  · rw [ht]; simp [upcalls, ACE_Asynch_Result.complete]
  · rw [hh]; exact Heap.deref_delete_self _ _
  · intro hempty milli_seconds last_error
    rw [hq, hempty, hd]
    exact ⟨_, rfl, rfl⟩

/-- Instance of C8: the packet posted for `(raising_handler, 4, 100)` comes back as a
failed dequeue with error 64; the handler still gets its one `handle_timeout`. -/
theorem timer_packet_delivers_one_handle_timeout_witness :
    upcalls (ACE_Proactor.handle_events 10060 0
        ((⟨9⟩ : ACE_Proactor_Handle_Timeout_Upcall).operator (fun _ => ⟨5, 1, 0, 0, 0⟩) true
          one_packet_heap (fun _ => []) raising_handler 4 100).heap ⟨0, 3, 1, 2, 64⟩).trace =
      [Upcall.handle_timeout 8 100 4] :=
  (timer_packet_delivers_one_handle_timeout ⟨9⟩ (fun _ => ⟨5, 1, 0, 0, 0⟩) true
    one_packet_heap (fun _ => []) raising_handler 4 100 10060 0 ⟨0, 3, 1, 2, 64⟩
    (by decide)).2.1

/-! ## Binding the functor -/

theorem bind_all_bound (ps : List Nat) :
    ∀ self : ACE_Proactor_Handle_Timeout_Upcall, self.proactor_ ≠ 0 →
      self.bind_all ps = self := by
  induction ps with
  | nil => intro self _; rfl
  | cons p ps ih =>
    intro self hb
    have hstep : (self.proactor p).2 = self := by
      simp [ACE_Proactor_Handle_Timeout_Upcall.proactor, hb]
    simp only [ACE_Proactor_Handle_Timeout_Upcall.bind_all, List.foldl_cons, hstep]
    exact ih self hb

/-- C10.  `proactor (p)` on an unbound functor binds it to `p` and returns 0; on a bound
functor it returns -1 and leaves the functor as it is.  Hence after any sequence of bind
calls on a newly constructed functor, the first of them with a Proactor at the (non-null)
address `p`, the functor is bound to `p`. -/
theorem upcall_functor_binds_once (self : ACE_Proactor_Handle_Timeout_Upcall) (p : Nat) :
    (self.proactor_ = 0 →
      (self.proactor p).1 = 0 ∧ (self.proactor p).2.proactor_ = p) ∧
    (self.proactor_ ≠ 0 →
      (self.proactor p).1 = -1 ∧ (self.proactor p).2 = self) ∧
    (p ≠ 0 → ∀ ps : List Nat,
      (ACE_Proactor_Handle_Timeout_Upcall.ctor.bind_all (p :: ps)).proactor_ = p) := by
  refine ⟨?_, ?_, ?_⟩
  · intro hu
    simp [ACE_Proactor_Handle_Timeout_Upcall.proactor, hu]
  · intro hb
    simp [ACE_Proactor_Handle_Timeout_Upcall.proactor, hb]
  · intro hp ps
    have hfirst : (ACE_Proactor_Handle_Timeout_Upcall.ctor.proactor p).2 = ⟨p⟩ := by
      simp [ACE_Proactor_Handle_Timeout_Upcall.proactor, ACE_Proactor_Handle_Timeout_Upcall.ctor]
    have := bind_all_bound ps ⟨p⟩ hp
    simp only [ACE_Proactor_Handle_Timeout_Upcall.bind_all, List.foldl_cons, hfirst] at this ⊢
    rw [this]

/-- Instance of C10: binding to 9, then 5, then 9 again leaves the functor bound to 9. -/
theorem upcall_functor_binds_once_witness :
    (ACE_Proactor_Handle_Timeout_Upcall.ctor.bind_all [9, 5, 9]).proactor_ = 9 :=
  (upcall_functor_binds_once ACE_Proactor_Handle_Timeout_Upcall.ctor 9).2.2 (by decide) [5, 9]

/-! ## Ownership of the timer queue -/

/-- What the setter does to the logs and the members, and when it is undefined. -/
theorem timer_queue_effect (self : ACE_Proactor) (this : Nat) (qs : Queues) (tq fresh : Nat) :
    (self.timer_queue this qs tq fresh).queues.deleted = qs.deleted ++ self.owned ∧
      (self.timer_queue this qs tq fresh).queues.created =
        qs.created ++ (self.timer_queue this qs tq fresh).proactor.owned ∧
      (self.timer_queue this qs tq fresh).proactor.timer_queue_ =
        (if tq = 0 then fresh else tq) ∧
      ((self.timer_queue this qs tq fresh).proactor.delete_timer_queue_ ≠ 0 ↔ tq = 0) ∧
      ((self.timer_queue this qs tq fresh).flow = Flow.undefined ↔
        tq ≠ 0 ∧ tq ∈ self.owned) := by
  simp only [ACE_Proactor.timer_queue, ACE_Proactor.owned]
  by_cases ha : tq = self.timer_queue_
  · have hc : (tq = self.timer_queue_) ↔ True := iff_true_intro ha
    by_cases hf : self.delete_timer_queue_ = 0 <;> by_cases ht : tq = 0 <;>
      simp [hf, ht, hc]
  · by_cases hf : self.delete_timer_queue_ = 0 <;> by_cases ht : tq = 0 <;>
      simp [hf, ht, ha]

/-- What `close ()` does to the logs and the flag. -/
theorem close_effect (self : ACE_Proactor) (qs : Queues) (os_close : Int) :
    (self.close qs os_close).2.2.deleted = qs.deleted ++ self.owned ∧
      (self.close qs os_close).2.2.created = qs.created ∧
      (self.close qs os_close).2.1.delete_timer_queue_ = 0 := by
  simp only [ACE_Proactor.close, ACE_Proactor.owned]
  by_cases hf : self.delete_timer_queue_ = 0 <;> by_cases hh : self.timer_handler_ = 0 <;>
    by_cases hc : self.completion_port_ = 0 <;> simp [hf, hh, hc]

/-- Every call keeps the books: the queues created are the queues deleted followed by
the installed queue while the flag is set. -/
theorem step_keeps_logs (this : Nat) (st : Installed) (op : Op)
    (hinv : st.queues.created = st.queues.deleted ++ st.proactor.owned) :
    (ACE_Proactor.step this st op).queues.created =
      (ACE_Proactor.step this st op).queues.deleted ++
        (ACE_Proactor.step this st op).proactor.owned := by
  cases op with
  | timer_queue tq fresh =>
    obtain ⟨hd, hc, -, -, -⟩ := timer_queue_effect st.proactor this st.queues tq fresh
    simp only [ACE_Proactor.step]
    rw [hc, hd, hinv]
  | close os_close =>
    obtain ⟨hd, hc, hz⟩ := close_effect st.proactor st.queues os_close
    simp only [ACE_Proactor.step]
    rw [hc, hd, hinv]
    simp [ACE_Proactor.owned, hz]

theorem run_keeps_logs (this : Nat) (ops : List Op) :
    ∀ st : Installed,
      st.queues.created = st.queues.deleted ++ st.proactor.owned →
      (ACE_Proactor.run this st ops).queues.created =
        (ACE_Proactor.run this st ops).queues.deleted ++
          (ACE_Proactor.run this st ops).proactor.owned := by
  induction ops with
  | nil => intro st hinv; exact hinv
  | cons op ops ih =>
    intro st hinv
    unfold ACE_Proactor.run
    cases hfl : st.flow with
    | normal => exact ih _ (step_keeps_logs this st op hinv)
    | raised => exact hinv
    | undefined => exact hinv

/-- From construction on, through any calls of the setter and of `close ()`: the queues
the Proactor created are exactly the queues it has deleted, in the same order, followed
by the installed queue while `delete_timer_queue_` is set.  So the Proactor deletes only
queues it created.  This is bookkeeping by address: it does not say that the queue
passed to the setter survives the call. -/
theorem life_keeps_logs (this : Nat) (functors : Nat → ACE_Proactor_Handle_Timeout_Upcall)
    (n tq port fresh th : Nat) (ops : List Op) :
    (ACE_Proactor.life this functors n tq port fresh th ops).queues.created =
        (ACE_Proactor.life this functors n tq port fresh th ops).queues.deleted ++
          (ACE_Proactor.life this functors n tq port fresh th ops).proactor.owned ∧
      (∀ q, q ∉ (ACE_Proactor.life this functors n tq port fresh th ops).queues.created →
        q ∉ (ACE_Proactor.life this functors n tq port fresh th ops).queues.deleted) := by
  have hinv := run_keeps_logs this ops
    ⟨(ACE_Proactor.ctor this ⟨functors, [], []⟩ n tq port fresh th).1,
      (ACE_Proactor.ctor this ⟨functors, [], []⟩ n tq port fresh th).2, Flow.normal⟩
    (by
      simp only [ACE_Proactor.ctor, ACE_Proactor.timer_queue, ACE_Proactor.owned]
      by_cases ht : tq = 0 <;> simp [ht])
  refine ⟨hinv, ?_⟩
  intro q hq hdel
  apply hq
  unfold ACE_Proactor.life
  rw [hinv]
  exact List.mem_append_left _ hdel

/-- C9 (the code departs from the claim).  The Proactor at address 9 is constructed
without a queue of the caller and creates its own queue 11, with the flag set.  The
caller then passes the queue the getter `timer_queue ()` returns, 11, to the setter.  The
setter deletes queue 11, the very queue passed to it, installs it again with the flag
clear, and calls `upcall_functor ()` through the freed pointer.  So a queue supplied by
the caller is deleted by the setter, and the installed queue is one the Proactor created
although the flag is not set. -/
theorem timer_queue_setter_deletes_supplied_queue :
    (ACE_Proactor.life 9 (fun _ => ⟨0⟩) 1 0 5 11 30 []).proactor = ⟨5, 1, 11, 1, 30⟩ ∧
    (ACE_Proactor.life 9 (fun _ => ⟨0⟩) 1 0 5 11 30 []).queues.created = [11] ∧
    (ACE_Proactor.life 9 (fun _ => ⟨0⟩) 1 0 5 11 30 []).queues.deleted = [] ∧
    (ACE_Proactor.life 9 (fun _ => ⟨0⟩) 1 0 5 11 30 []).flow = Flow.normal ∧
    (ACE_Proactor.life 9 (fun _ => ⟨0⟩) 1 0 5 11 30 [Op.timer_queue 11 0]).proactor =
      ⟨5, 1, 11, 0, 30⟩ ∧
    (ACE_Proactor.life 9 (fun _ => ⟨0⟩) 1 0 5 11 30 [Op.timer_queue 11 0]).queues.created =
      [11] ∧
    (ACE_Proactor.life 9 (fun _ => ⟨0⟩) 1 0 5 11 30 [Op.timer_queue 11 0]).queues.deleted =
      [11] ∧
    (ACE_Proactor.life 9 (fun _ => ⟨0⟩) 1 0 5 11 30 [Op.timer_queue 11 0]).flow =
      Flow.undefined := by
  refine ⟨by decide, by decide, by decide, by decide, by decide, by decide, by decide,
    by decide⟩

/-! ## Construction -/

/-- C11 as stated fails.  `::CreateIoCompletionPort` returns null while the Proactor at
address 9 is constructed with one thread and no timer queue of the caller: construction
goes on and yields a Proactor whose `completion_port_` is null, with its own timer queue
11 and timer handler 30. -/
theorem ctor_yields_proactor_with_null_port :
    (ACE_Proactor.ctor 9 ⟨fun _ => ⟨0⟩, [], []⟩ 1 0 0 11 30).1 = ⟨0, 1, 11, 1, 30⟩ := by
  decide

/-- C11, amended.  Construction always yields a Proactor, and its `completion_port_` is
whatever `::CreateIoCompletionPort` returned.  When that is null the constructor writes
an `ACE_ERROR` record (and only then), still installs the timer queue and creates the
timer handler, and `close ()` on the resulting Proactor leaves the port alone and
returns 0. -/
theorem ctor_logs_port_failure_and_goes_on (this : Nat) (qs : Queues)
    (n tq port fresh th : Nat) (activate os_close : Int) :
    (ACE_Proactor.ctor this qs n tq port fresh th).1.completion_port_ = port ∧
      (ACE_Proactor.ctor this qs n tq port fresh th).1.number_of_threads_ = n ∧
      (ACE_Proactor.ctor this qs n tq port fresh th).1.timer_queue_ =
        (if tq = 0 then fresh else tq) ∧
      (ACE_Proactor.ctor this qs n tq port fresh th).1.timer_handler_ = th ∧
      (Logged.CreateIoCompletionPort ∈ ACE_Proactor.ctor_log port th activate ↔ port = 0) ∧
      (ACE_Proactor.ctor this qs n tq 0 fresh th).1.completion_port_ = 0 ∧
      ((ACE_Proactor.ctor this qs n tq 0 fresh th).1.close
        (ACE_Proactor.ctor this qs n tq 0 fresh th).2 os_close).1 = 0 ∧
      ((ACE_Proactor.ctor this qs n tq 0 fresh th).1.close
        (ACE_Proactor.ctor this qs n tq 0 fresh th).2 os_close).2.1.completion_port_ = 0 := by
  refine ⟨?_, ?_, ?_, ?_, ?_, ?_, ?_, ?_⟩
  · simp only [ACE_Proactor.ctor, ACE_Proactor.timer_queue]
    by_cases ht : tq = 0 <;> simp [ht]
  · simp only [ACE_Proactor.ctor, ACE_Proactor.timer_queue]
    by_cases ht : tq = 0 <;> simp [ht]
  · simp only [ACE_Proactor.ctor, ACE_Proactor.timer_queue]
    by_cases ht : tq = 0 <;> simp [ht]
  · simp only [ACE_Proactor.ctor, ACE_Proactor.timer_queue]
  · by_cases hp : port = 0 <;> by_cases ha : th ≠ 0 ∧ activate = -1 <;>
      simp [ACE_Proactor.ctor_log, hp, ha]
  · simp only [ACE_Proactor.ctor, ACE_Proactor.timer_queue]
    by_cases ht : tq = 0 <;> simp [ht]
  · simp only [ACE_Proactor.ctor, ACE_Proactor.timer_queue, ACE_Proactor.close]
    by_cases ht : tq = 0 <;> by_cases hh : th = 0 <;> simp [ht, hh]
  · simp only [ACE_Proactor.ctor, ACE_Proactor.timer_queue, ACE_Proactor.close]
    by_cases ht : tq = 0 <;> by_cases hh : th = 0 <;> simp [ht, hh]

/-! ## The timer handler thread -/

/-- C12 (the code departs from the claim).  The queue holds a timer that expired 5
milliseconds ago (earliest time 995000, clock 1000000).  The spec asks for a wait of 0;
`svc` waits 4294967291 milliseconds, because the negative duration is stored in a
`u_long` and the test `time < 0` can then never hold. -/
theorem svc_wait_time_wraps_when_overdue :
    ACE_Proactor_Timer_Handler.wait_time Timer_List.queue overdue_queue 1000000 =
        4294967291 ∧
      spec_wait_time Timer_List.queue overdue_queue 1000000 = 0 := by
  constructor <;> decide

theorem wait_failed_ne_timeout : WAIT_FAILED ≠ WAIT_TIMEOUT := by decide

/-- The three ways one turn of the loop can go. -/
theorem svc_turn {σ : Type} (Q : Timer_Queue σ) (t : Turn σ) (turns : List (Turn σ)) :
    (t.wait_result = WAIT_TIMEOUT →
      ACE_Proactor_Timer_Handler.svc Q (t :: turns) =
        ⟨Timer_Event.wait (ACE_Proactor_Timer_Handler.wait_time Q t.queue t.gettimeofday) ::
            Timer_Event.expire :: (ACE_Proactor_Timer_Handler.svc Q turns).trace,
          (ACE_Proactor_Timer_Handler.svc Q turns).returned⟩) ∧
    (t.wait_result = WAIT_FAILED →
      ACE_Proactor_Timer_Handler.svc Q (t :: turns) =
        ⟨[Timer_Event.wait (ACE_Proactor_Timer_Handler.wait_time Q t.queue t.gettimeofday)],
          some (-1)⟩) ∧
    (t.wait_result ≠ WAIT_TIMEOUT → t.wait_result ≠ WAIT_FAILED →
      ACE_Proactor_Timer_Handler.svc Q (t :: turns) =
        ⟨Timer_Event.wait (ACE_Proactor_Timer_Handler.wait_time Q t.queue t.gettimeofday) ::
            (ACE_Proactor_Timer_Handler.svc Q turns).trace,
          (ACE_Proactor_Timer_Handler.svc Q turns).returned⟩) := by
  refine ⟨?_, ?_, ?_⟩
  · intro hto
    simp [ACE_Proactor_Timer_Handler.svc, hto]
  · intro hf
    simp [ACE_Proactor_Timer_Handler.svc, hf, wait_failed_ne_timeout]
  · intro hto hf
    simp [ACE_Proactor_Timer_Handler.svc, hf, hto]

theorem svc_returned_cases {σ : Type} (Q : Timer_Queue σ) (turns : List (Turn σ)) :
    ((ACE_Proactor_Timer_Handler.svc Q turns).returned = some (-1) ∧
        ∃ t ∈ turns, t.wait_result = WAIT_FAILED) ∨
      ((ACE_Proactor_Timer_Handler.svc Q turns).returned = none ∧
        ∀ t ∈ turns, t.wait_result ≠ WAIT_FAILED) := by
  induction turns with
  | nil => right; exact ⟨rfl, fun t ht => by cases ht⟩
  | cons t turns ih =>
    by_cases hf : t.wait_result = WAIT_FAILED
    · left
      refine ⟨?_, t, List.mem_cons_self _ _, hf⟩
      rw [(svc_turn Q t turns).2.1 hf]
    · have hret : (ACE_Proactor_Timer_Handler.svc Q (t :: turns)).returned =
          (ACE_Proactor_Timer_Handler.svc Q turns).returned := by
        by_cases hto : t.wait_result = WAIT_TIMEOUT
        · rw [(svc_turn Q t turns).1 hto]
        · rw [(svc_turn Q t turns).2.2 hto hf]
      rw [hret]
      rcases ih with ⟨h1, u, hu, huf⟩ | ⟨h1, h2⟩
      · left; exact ⟨h1, u, List.mem_cons_of_mem _ hu, huf⟩
      · right
        refine ⟨h1, fun u hu => ?_⟩
        rcases List.mem_cons.mp hu with h | h
        · rw [h]; exact hf
        · exact h2 u h

theorem served_turns_failed {σ : Type} (t : Turn σ) (turns : List (Turn σ))
    (hf : t.wait_result = WAIT_FAILED) : served_turns (t :: turns) = [t] := by
  unfold served_turns
  rw [if_pos hf]

theorem served_turns_cons {σ : Type} (t : Turn σ) (turns : List (Turn σ))
    (hf : t.wait_result ≠ WAIT_FAILED) :
    served_turns (t :: turns) = t :: served_turns turns := by
  show (if t.wait_result = WAIT_FAILED then [t] else t :: served_turns turns) = _
  rw [if_neg hf]

theorem timeouts_cons_timeout {σ : Type} (t : Turn σ) (l : List (Turn σ))
    (hto : t.wait_result = WAIT_TIMEOUT) : timeouts (t :: l) = timeouts l + 1 := by
  unfold timeouts
  rw [List.countP_cons_of_pos]
  exact decide_eq_true hto

theorem timeouts_cons_other {σ : Type} (t : Turn σ) (l : List (Turn σ))
    (hto : t.wait_result ≠ WAIT_TIMEOUT) : timeouts (t :: l) = timeouts l := by
  unfold timeouts
  rw [List.countP_cons_of_neg]
  simpa using hto

theorem expirations_wait (m : Nat) (l : List Timer_Event) :
    expirations (Timer_Event.wait m :: l) = expirations l := by
  unfold expirations
  rw [List.count_cons_of_ne]
  intro h
  cases h

theorem expirations_expire (l : List Timer_Event) :
    expirations (Timer_Event.expire :: l) = expirations l + 1 := by
  unfold expirations
  rw [List.count_cons_self]

theorem svc_counts {σ : Type} (Q : Timer_Queue σ) (turns : List (Turn σ)) :
    expirations (ACE_Proactor_Timer_Handler.svc Q turns).trace =
        timeouts (served_turns turns) ∧
      (ACE_Proactor_Timer_Handler.svc Q turns).trace.length =
        (served_turns turns).length + timeouts (served_turns turns) := by
  induction turns with
  | nil => exact ⟨rfl, rfl⟩
  | cons t turns ih =>
    obtain ⟨ih1, ih2⟩ := ih
    by_cases hf : t.wait_result = WAIT_FAILED
    · have hnt : t.wait_result ≠ WAIT_TIMEOUT := by rw [hf]; exact wait_failed_ne_timeout
      rw [(svc_turn Q t turns).2.1 hf, served_turns_failed t turns hf,
        timeouts_cons_other t [] hnt]
      exact ⟨rfl, rfl⟩
    · rw [served_turns_cons t turns hf]
      by_cases hto : t.wait_result = WAIT_TIMEOUT
      · rw [(svc_turn Q t turns).1 hto, timeouts_cons_timeout t _ hto]
        refine ⟨?_, ?_⟩
        · show expirations (Timer_Event.wait _ :: Timer_Event.expire :: _) = _
          rw [expirations_wait, expirations_expire, ih1]
        · show (Timer_Event.wait _ :: Timer_Event.expire ::
            (ACE_Proactor_Timer_Handler.svc Q turns).trace).length = _
          simp only [List.length_cons, ih2]
          omega
      · rw [(svc_turn Q t turns).2.2 hto hf, timeouts_cons_other t _ hto]
        refine ⟨?_, ?_⟩
        · show expirations (Timer_Event.wait _ :: _) = _
          rw [expirations_wait, ih1]
        · show (Timer_Event.wait _ :: (ACE_Proactor_Timer_Handler.svc Q turns).trace).length = _
          simp only [List.length_cons, ih2]
          omega

/-- C13.  One turn of the loop of `svc`: after the wait, `expire ()` is called once when
the wait returned timeout and the loop goes on; a failed wait makes `svc` return -1 at
once; any other wait result (the event was signaled) makes the loop go on without
`expire ()`.  Over any number of turns: `expire ()` is called once per timeout among
the turns up to the first failed wait, every such turn waits once, and `svc` returns -1
exactly when a wait failed and otherwise stays in its loop. -/
theorem svc_step_relation {σ : Type} (Q : Timer_Queue σ) :
    (∀ (t : Turn σ) (turns : List (Turn σ)),
      (t.wait_result = WAIT_TIMEOUT →
        ACE_Proactor_Timer_Handler.svc Q (t :: turns) =
          ⟨Timer_Event.wait (ACE_Proactor_Timer_Handler.wait_time Q t.queue t.gettimeofday) ::
              Timer_Event.expire :: (ACE_Proactor_Timer_Handler.svc Q turns).trace,
            (ACE_Proactor_Timer_Handler.svc Q turns).returned⟩) ∧
      (t.wait_result = WAIT_FAILED →
        ACE_Proactor_Timer_Handler.svc Q (t :: turns) =
          ⟨[Timer_Event.wait (ACE_Proactor_Timer_Handler.wait_time Q t.queue t.gettimeofday)],
            some (-1)⟩) ∧
      (t.wait_result ≠ WAIT_TIMEOUT → t.wait_result ≠ WAIT_FAILED →
        ACE_Proactor_Timer_Handler.svc Q (t :: turns) =
          ⟨Timer_Event.wait (ACE_Proactor_Timer_Handler.wait_time Q t.queue t.gettimeofday) ::
              (ACE_Proactor_Timer_Handler.svc Q turns).trace,
            (ACE_Proactor_Timer_Handler.svc Q turns).returned⟩)) ∧
    (∀ turns : List (Turn σ),
      expirations (ACE_Proactor_Timer_Handler.svc Q turns).trace =
        timeouts (served_turns turns) ∧
      (ACE_Proactor_Timer_Handler.svc Q turns).trace.length =
        (served_turns turns).length + timeouts (served_turns turns) ∧
      ((ACE_Proactor_Timer_Handler.svc Q turns).returned = some (-1) ↔
        ∃ t ∈ turns, t.wait_result = WAIT_FAILED) ∧
      ((ACE_Proactor_Timer_Handler.svc Q turns).returned = none ↔
        ∀ t ∈ turns, t.wait_result ≠ WAIT_FAILED) ∧
      (∀ r : Int, (ACE_Proactor_Timer_Handler.svc Q turns).returned = some r → r = -1)) := by
  constructor
  · intro t turns
    exact svc_turn Q t turns
  · intro turns
    obtain ⟨hc1, hc2⟩ := svc_counts Q turns
    refine ⟨hc1, hc2, ?_, ?_, ?_⟩
    · rcases svc_returned_cases Q turns with ⟨h1, h2⟩ | ⟨h1, h2⟩
      · exact ⟨fun _ => h2, fun _ => h1⟩
      · constructor
        · intro h; rw [h1] at h; cases h
        · rintro ⟨u, hu, huf⟩; exact absurd huf (h2 u hu)
    · rcases svc_returned_cases Q turns with ⟨h1, u, hu, huf⟩ | ⟨h1, h2⟩
      · constructor
        · intro h; rw [h1] at h; cases h
        · intro h; exact absurd huf (h u hu)
      · exact ⟨fun _ => h2, fun _ => h1⟩
    · intro r hr
      rcases svc_returned_cases Q turns with ⟨h1, -⟩ | ⟨h1, -⟩
      · rw [h1] at hr; cases hr; rfl
      · rw [h1] at hr; cases hr

/-- Instance of C13: the event is signaled, the wait times out, the wait fails, and a
fourth turn is never reached: one `expire ()`, three waits, `svc` returns -1. -/
theorem svc_step_relation_witness :
    ACE_Proactor_Timer_Handler.svc Timer_List.queue
        [⟨⟨[], 0, 4⟩, 0, 0⟩, ⟨overdue_queue, 990000, 258⟩, ⟨overdue_queue, 990000, 4294967295⟩,
          ⟨overdue_queue, 990000, 258⟩] =
      ⟨[Timer_Event.wait 4294967295, Timer_Event.wait 5, Timer_Event.expire,
          Timer_Event.wait 5], some (-1)⟩ := by
  rw [((svc_step_relation Timer_List.queue).1 ⟨⟨[], 0, 4⟩, 0, 0⟩ _).2.2 (by decide) (by decide),
    ((svc_step_relation Timer_List.queue).1 ⟨overdue_queue, 990000, 258⟩ _).1 rfl,
    ((svc_step_relation Timer_List.queue).1 ⟨overdue_queue, 990000, 4294967295⟩ _).2.1 rfl]
  decide

/-! ## Null packets -/

/-- C14 (the code departs from the claim).  A packet posted with a null overlapped
pointer is dequeued with result TRUE and a null packet.  `handle_events` takes the
dispatch path: `application_specific_code` is reached with a null `asynch_result`,
`complete` is called through the null pointer and `delete` is applied to it. -/
theorem handle_events_dispatches_null_packet :
    GetQueuedCompletionStatus
        ((PostQueuedCompletionStatus true (fun _ => []) 5 0 0 0).2 5) 0 0 =
      some (⟨1, 0, 0, 0, 0⟩, []) ∧
    (ACE_Proactor.handle_events 10060 0 one_packet_heap ⟨1, 0, 0, 0, 0⟩).trace =
      [Event.complete 0 0 1 0 0, Event.destroy 0] ∧
    (ACE_Proactor.handle_events 10060 0 one_packet_heap ⟨1, 0, 0, 0, 0⟩).outcome =
      Outcome.undefined := by
  refine ⟨by decide, by rfl, by rfl⟩

/-! ## The active demultiplexing object table -/

/-- In `find`, `bind` and `unbind` every use of `table_[index]` is at the parsed index, and
that index is at most `tablesize_`: the guard lets `index = tablesize_` through. -/
theorem demux_accesses_bound (self : TAO_Active_Demux_ObjTable)
    (parse_object_id : List Nat → Int × Nat × Nat)
    (beyond : Nat → TAO_Object_Table_Entry) (checked : Bool) (id : List Nat)
    (servant : Nat) (a : Access)
    (ha : a ∈ (self.find parse_object_id beyond checked id servant).accesses ∨
      a ∈ (self.bind parse_object_id beyond checked id servant).accesses ∨
      a ∈ (self.unbind parse_object_id beyond id servant).accesses) :
    (a = Access.read (parse_object_id id).2.1 ∨ a = Access.write (parse_object_id id).2.1) ∧
      (parse_object_id id).2.1 ≤ self.tablesize_ := by
  unfold TAO_Active_Demux_ObjTable.find TAO_Active_Demux_ObjTable.bind
    TAO_Active_Demux_ObjTable.unbind at ha
  by_cases hguard : (parse_object_id id).1 ≠ 0 ∨ (parse_object_id id).2.1 > self.tablesize_
  · simp [hguard] at ha
  · have hle : (parse_object_id id).2.1 ≤ self.tablesize_ := by
      by_contra hgt
      exact hguard (Or.inr (Nat.lt_of_not_le hgt))
    refine ⟨?_, hle⟩
    simp only [hguard, if_false] at ha
    rcases ha with ha | ha | ha
    · split_ifs at ha <;> simp at ha <;> tauto
    · split_ifs at ha <;> simp at ha <;> tauto
    · split_ifs at ha <;> simp at ha <;> tauto

/-- C15 (the code departs from the claim).  The table has two entries (`tablesize_` is
2) and the id parses to index 2.  The guard `index > tablesize_` does not reject it:
`find`, `bind` and `unbind` read `table_[2]`, one element past the end of the array.  When
the generation found there differs, they return -1 after that read; when it matches,
`find` and `unbind` return the servant found there and `bind` and `unbind` also write
`table_[2]`. -/
theorem demux_guard_admits_index_tablesize :
    two_entry_table.table_.length = two_entry_table.tablesize_ ∧
    two_entry_table.find pair_id stray_memory true [2, 4] 0 =
      ⟨Verdict.returned 0, 99, two_entry_table,
        [Access.read 2, Access.read 2, Access.read 2]⟩ ∧
    two_entry_table.bind pair_id stray_memory true [2, 4] 77 =
      ⟨Verdict.returned 0, 77, two_entry_table,
        [Access.read 2, Access.read 2, Access.write 2]⟩ ∧
    two_entry_table.unbind pair_id stray_memory [2, 4] 0 =
      ⟨Verdict.returned 0, 99, two_entry_table,
        [Access.read 2, Access.read 2, Access.write 2]⟩ ∧
    two_entry_table.find pair_id stray_memory true [2, 9] 0 =
      ⟨Verdict.returned (-1), 0, two_entry_table, [Access.read 2]⟩ ∧
    out_of_range two_entry_table.tablesize_
        (two_entry_table.find pair_id stray_memory true [2, 9] 0).accesses =
      [Access.read 2] := by
  refine ⟨by decide, by decide, by decide, by decide, by decide, by decide⟩

end ACE
